import Mathlib

/-!
Verification development for the admission / execution / streaming-delivery
control plane of the claude-telegram-bot repository.

Shallow embedding conventions:
  * JavaScript strings are Lean `String`s; all concrete inputs used below are
    ASCII, where JS `.length`, `.slice`, `.toLowerCase`, `.includes`,
    `.startsWith` coincide with the character-list operations defined here.
  * `Date.now()` timestamps are `Nat` milliseconds, supplied as explicit
    inputs wherever the source calls `Date.now()`.
  * JS numeric comparisons such as `now - last > 500` agree with Lean's
    truncated `Nat` subtraction: when `now < last` both evaluate to false.
  * Promises are evaluated synchronously: an `async` function is a pure
    function from its inputs (including the full provider event stream) to
    its result together with the ordered list of side effects it performed.
  * Injected collaborator functions (the markdown-to-HTML converter, the
    tool-status formatter, the filesystem-dependent path check, the
    shell-quote parser) are taken as parameters of the model, mirroring the
    fact that the code under verification merely calls them.
-/

/-! ## String helpers (JS semantics on ASCII inputs) -/

/-- JS `s.slice(0, n)`: first `n` characters of `s`. -/
def jsTake (s : String) (n : Nat) : String := ⟨s.data.take n⟩

/-- JS `s.slice(n)`: drop the first `n` characters of `s`. -/
def jsDrop (s : String) (n : Nat) : String := ⟨s.data.drop n⟩

/-- JS `s.toLowerCase()` restricted to ASCII. -/
def jsLower (s : String) : String := ⟨s.data.map Char.toLower⟩

/-- JS `s.startsWith(p)`. -/
def jsStartsWith (s p : String) : Bool := p.data.isPrefixOf s.data

/-- Auxiliary scan for substring containment. -/
def jsIncludesAux (p : List Char) : List Char → Bool
  | [] => p.isEmpty
  | c :: rest => p.isPrefixOf (c :: rest) || jsIncludesAux p rest

/-- JS `s.includes(p)`. -/
def jsIncludes (s p : String) : Bool := jsIncludesAux p.data s.data

/-! ## Admission Controller: the query queue (src/query-queue.ts)

`QueryQueue` keeps a FIFO array `queue` and a `processing` flag.  The
concurrency cap `MAX_CONCURRENT_QUERIES` and capacity `MAX_QUERY_QUEUE_SIZE`
are configuration constants read from src/config.ts; they appear here as
explicit `maxConcurrent` / `maxQueueSize` parameters.  The global in-flight
counter `ClaudeSession.activeQueryCount` is read (never written) by the
queue, so it is the explicit parameter `active`. -/

/-- A queued query (`QueuedQuery` in src/query-queue.ts).  The promise
`resolve`/`reject` handles are represented by the identity of the entry
itself; the status callback is represented by the notification text the
queue sends through it. -/
structure QueuedQuery where
  message : String
  username : String
  userId : Nat
  chatId : Option Nat
  queuedAt : Nat
deriving DecidableEq, Repr

/-- Result of `QueryQueue.sendMessage` as seen by the submitting caller. -/
inductive SubmitOutcome where
  /-- under the cap: the query was dispatched immediately. -/
  | dispatched
  /-- queue full: the call threw with this error message. -/
  | rejected (errMsg : String)
  /-- the query was appended; `position` is the 1-based queue position and
      `notice` the text sent through the status callback. -/
  | enqueued (position : Nat) (notice : String)
deriving DecidableEq, Repr

/-- `QueryQueue.sendMessage` (src/query-queue.ts lines 57-111).  Returns the
queue contents after the call together with the outcome. -/
def queueSendMessage (maxConcurrent maxQueueSize active : Nat)
    (queue : List QueuedQuery) (q : QueuedQuery) :
    List QueuedQuery × SubmitOutcome :=
  if active < maxConcurrent then
    (queue, .dispatched)
  else if queue.length ≥ maxQueueSize then
    (queue, .rejected ("Queue full (" ++ toString queue.length ++ "/" ++
      toString maxQueueSize ++ "). Try again later."))
  else
    let queue' := queue ++ [q]
    (queue', .enqueued queue'.length
      ("Position " ++ toString queue'.length ++ " in queue (" ++
        toString active ++ " running)"))

/-- Mutable state of the `QueryQueue` instance. -/
structure QueueState where
  queue : List QueuedQuery
  processing : Bool
deriving DecidableEq, Repr

/-- `QueryQueue.processNext` (src/query-queue.ts lines 117-177), as one
atomic dispatch step: a no-op when already `processing`, when the queue is
empty or when the in-flight count is at the cap; otherwise it shifts the
head of the queue and dispatches it (the source awaits the dispatched query
and resets `processing` in its `finally` block, so the flag is `false`
again once the step completes). -/
def queueProcessNext (maxConcurrent active : Nat) (s : QueueState) :
    QueueState × Option QueuedQuery :=
  if s.processing then (s, none)
  else if s.queue.length = 0 ∨ active ≥ maxConcurrent then (s, none)
  else
    match s.queue with
    | [] => (s, none)
    | q :: rest => (⟨rest, s.processing⟩, some q)

/-- Iterate `queueProcessNext` `n` times (the `queryFinished` event fires
`processNext` once per completed query; the `finally` block re-triggers it
through `setImmediate` while entries remain), collecting the dispatched
entries in dispatch order. -/
def queueProcessNextN (maxConcurrent active : Nat) (s : QueueState) :
    Nat → QueueState × List QueuedQuery
  | 0 => (s, [])
  | n + 1 =>
    match queueProcessNext maxConcurrent active s with
    | (s', none) => (s', [])
    | (s', some q) =>
      let (s'', ds) := queueProcessNextN maxConcurrent active s' n
      (s'', q :: ds)

/-- `QueryQueue.clear` (src/query-queue.ts lines 183-191): rejects every
queued entry with `Error("Queue cleared")` and empties the array.  Returns
the new state and the list of (entry, rejection message) pairs. -/
def queueClear (s : QueueState) : QueueState × List (QueuedQuery × String) :=
  (⟨[], s.processing⟩, s.queue.map (fun q => (q, "Queue cleared")))

/-- The admission system: the queue state together with the list of entries
whose execution has already been started (dispatched either immediately by
`sendMessage` or by `processNext`).  `clear` manipulates only
`this.queue`, which is what the in-flight component makes observable. -/
structure AdmissionSystem where
  qstate : QueueState
  inFlight : List QueuedQuery
deriving DecidableEq, Repr

/-- `QueryQueue.clear` lifted to the admission system: the body of `clear`
touches only `this.queue`, so the in-flight component is carried through
unchanged. -/
def admissionClear (sys : AdmissionSystem) :
    AdmissionSystem × List (QueuedQuery × String) :=
  let (st, rej) := queueClear sys.qstate
  (⟨st, sys.inFlight⟩, rej)

/-- `QueryQueue.getStatus` (src/query-queue.ts lines 196-211). -/
def queueGetStatus (maxQueueSize now : Nat) (s : QueueState) :
    Nat × Nat × Option Nat :=
  (s.queue.length, maxQueueSize,
    match s.queue with
    | [] => none
    | q :: _ => some (now - q.queuedAt))

/-! ## Security: command safety (src/security.ts)

`checkCommandSafety` lowercases the command, scans the configured
`BLOCKED_PATTERNS` by substring, and for commands containing "rm " parses
the command with the shell-quote library and validates every non-flag rm
argument with `isPathAllowed`.  `BLOCKED_PATTERNS` comes from
src/config.ts and is a parameter here; `isPathAllowed` resolves symlinks
on the real filesystem and the shell-quote parser is an external library,
so both are injected parameters (`pathAllowed`, `rmParse`; a `none` from
`rmParse` models a parse failure, which the source treats as unsafe). -/
def checkCommandSafety (blockedPatterns : List String)
    (pathAllowed : String → Bool) (rmParse : String → Option (List String))
    (command : String) : Bool × String :=
  let lower := jsLower command
  match blockedPatterns.find? (fun p => jsIncludes lower (jsLower p)) with
  | some p => (false, "Blocked pattern: " ++ p)
  | none =>
    if jsIncludes lower "rm " then
      match rmParse command with
      | none => (false, "Could not parse rm command for safety check")
      | some rmArgs =>
        match rmArgs.find? (fun a =>
            !(jsStartsWith a "-") && !(a.length ≤ 1) && !(pathAllowed a)) with
        | some a => (false, "rm target outside allowed paths: " ++ a)
        | none => (true, "")
    else (true, "")

/-! ## Session Execution Engine (src/session.ts)

`ClaudeSession.sendMessageStreaming` pulls the SDK event stream, applies
the safety checks inline, segments the streamed text, and forwards
normalized status updates through the injected `statusCallback`.  The
model below reproduces the control flow of src/session.ts lines 108-310.

The SDK stream is the input list `events`; a stream that ends by throwing
(e.g. the Claude Code subprocess exiting) is modelled by a trailing
`streamErr : Option String` carrying the thrown error's string form.
The injected collaborators are parameters: `checkCmd` is
`checkCommandSafety` (partially applied to its configuration),
`pathAllowed` is `security.isPathAllowed`, and `fmtTool` is
`formatting.formatToolStatus`. -/

/-- Input of a tool_use block, projected to the fields the session engine
reads.  A missing key reads as the empty string (JS `String(x || "")`). -/
structure ToolInput where
  command : String
  filePath : String
deriving DecidableEq, Repr

/-- One content block of an SDK assistant message.  A `text` block carries
the value of `Date.now()` at the moment it is processed. -/
inductive Block where
  | thinking (text : String)
  | toolUse (name : String) (input : ToolInput)
  | text (t : String) (now : Nat)
deriving DecidableEq, Repr

/-- One SDK stream event: an assistant message with content blocks, or the
terminal result message (optionally carrying usage).  Either may carry a
`session_id`. -/
inductive SDKEvent where
  | assistant (sessionId : Option String) (blocks : List Block)
  | result (sessionId : Option String) (usage : Option Nat)
deriving DecidableEq, Repr

/-- One invocation of the injected `statusCallback`: the status type, the
content, the optional segment id, and the `Date.now()` value observable by
the callback (only `text` updates carry a meaningful time; the delivery
adapter reads the clock only in its `text` branch). -/
structure StatusCall where
  stype : String
  content : String
  segId : Option Nat
  time : Nat
deriving DecidableEq, Repr

/-- Per-run mutable state of `sendMessageStreaming`, together with the
session fields it touches. -/
structure EngineState where
  sessionId : Option String
  stopRequested : Bool
  queryCompleted : Bool
  lastUsage : Option Nat
  currentSegmentId : Nat
  currentSegmentText : String
  lastTextUpdate : Nat
  responseParts : List String
  currentTool : Option String
  lastTool : Option String
deriving DecidableEq, Repr

/-- Outcome of processing a prefix of the stream: either control continues
with the updated state, or a safety check threw. -/
inductive StepOut where
  | cont (st : EngineState) (calls : List StatusCall)
  | thrown (st : EngineState) (calls : List StatusCall) (err : String)
deriving DecidableEq, Repr

/-- Prepend earlier calls to a step outcome. -/
def StepOut.withCalls (pre : List StatusCall) : StepOut → StepOut
  | .cont st calls => .cont st (pre ++ calls)
  | .thrown st calls e => .thrown st (pre ++ calls) e

/-- Process one content block (src/session.ts lines 184-261). -/
def processBlock (checkCmd : String → Bool × String)
    (pathAllowed : String → Bool) (fmtTool : String → ToolInput → String)
    (st : EngineState) : Block → StepOut
  | .thinking t =>
    if t ≠ "" then .cont st [⟨"thinking", t, none, 0⟩] else .cont st []
  | .toolUse name input =>
    -- Safety check for Bash commands
    let bash := checkCmd input.command
    if name = "Bash" ∧ bash.1 = false then
      .thrown st [⟨"tool", "BLOCKED: " ++ bash.2, none, 0⟩]
        ("Unsafe command blocked: " ++ bash.2)
    else
      -- Safety check for file operations
      let fp := input.filePath
      let isTmpRead := name = "Read" ∧
        (jsStartsWith fp "/tmp/" ∨ jsStartsWith fp "/private/tmp/" ∨
         jsStartsWith fp "/var/folders/" ∨ jsIncludes fp "/.claude/")
      if (name = "Read" ∨ name = "Write" ∨ name = "Edit") ∧ fp ≠ "" ∧
          ¬isTmpRead ∧ pathAllowed fp = false then
        .thrown st [⟨"tool", "Access denied: " ++ fp, none, 0⟩]
          ("File access blocked: " ++ fp)
      else
        -- Segment ends when tool starts
        let (st, segCalls) :=
          if st.currentSegmentText ≠ "" then
            ({ st with currentSegmentId := st.currentSegmentId + 1,
                       currentSegmentText := "" },
             [(⟨"segment_end", st.currentSegmentText,
                some st.currentSegmentId, 0⟩ : StatusCall)])
          else (st, [])
        let d := fmtTool name input
        let st := { st with currentTool := some d, lastTool := some d }
        -- Don't show tool status for ask_user
        if ¬jsStartsWith name "mcp__ask-user" then
          .cont st (segCalls ++ [⟨"tool", d, none, 0⟩])
        else
          .cont st segCalls
  | .text t now =>
    let st := { st with responseParts := st.responseParts ++ [t],
                        currentSegmentText := st.currentSegmentText ++ t }
    -- Stream text updates (throttled)
    if now - st.lastTextUpdate > 500 ∧ st.currentSegmentText.length > 20 then
      .cont { st with lastTextUpdate := now }
        [⟨"text", st.currentSegmentText, some st.currentSegmentId, now⟩]
    else
      .cont st []

/-- Process the blocks of one assistant message in order; a throw skips the
remaining blocks. -/
def processBlocks (checkCmd : String → Bool × String)
    (pathAllowed : String → Bool) (fmtTool : String → ToolInput → String)
    (st : EngineState) : List Block → StepOut
  | [] => .cont st []
  | b :: bs =>
    match processBlock checkCmd pathAllowed fmtTool st b with
    | .cont st' calls =>
      (processBlocks checkCmd pathAllowed fmtTool st' bs).withCalls calls
    | .thrown st' calls e => .thrown st' calls e

/-- Capture `session_id` from the first event carrying one
(src/session.ts lines 177-181). -/
def captureSessionId (st : EngineState) : SDKEvent → EngineState
  | .assistant sid _ => match st.sessionId, sid with
    | none, some s => { st with sessionId := some s }
    | _, _ => st
  | .result sid _ => match st.sessionId, sid with
    | none, some s => { st with sessionId := some s }
    | _, _ => st

/-- Process the event stream (src/session.ts lines 169-275): check the
abort flag at the top of each iteration, capture the session id, then
dispatch on the event type.  A throw from a safety check stops the
iteration. -/
def processEvents (checkCmd : String → Bool × String)
    (pathAllowed : String → Bool) (fmtTool : String → ToolInput → String)
    (st : EngineState) : List SDKEvent → StepOut
  | [] => .cont st []
  | e :: es =>
    if st.stopRequested then .cont st []
    else
      let st := captureSessionId st e
      match e with
      | .assistant _ blocks =>
        match processBlocks checkCmd pathAllowed fmtTool st blocks with
        | .cont st' calls =>
          (processEvents checkCmd pathAllowed fmtTool st' es).withCalls calls
        | .thrown st' calls err => .thrown st' calls err
      | .result _ usage =>
        let st := { st with queryCompleted := true,
                            lastUsage := match usage with
                              | some u => some u
                              | none => st.lastUsage }
        processEvents checkCmd pathAllowed fmtTool st es

/-- Session fields that persist across runs. -/
structure SessionCtx where
  sessionId : Option String
  isRunning : Bool
  lastError : Option String
  lastUsage : Option Nat
  lastTool : Option String
deriving DecidableEq, Repr

/-- The engine state at the top of `sendMessageStreaming`'s streaming loop
(src/session.ts lines 144-156): abort and completion flags reset, response
tracking cleared. -/
def initEngine (sess : SessionCtx) : EngineState :=
  { sessionId := sess.sessionId, stopRequested := false,
    queryCompleted := false, lastUsage := sess.lastUsage,
    currentSegmentId := 0, currentSegmentText := "", lastTextUpdate := 0,
    responseParts := [], currentTool := none, lastTool := sess.lastTool }

/-- Result of one `sendMessageStreaming` call: the ordered status-callback
invocations, the outcome (`.ok` with the returned string, `.error` with the
rethrown error), and the session state after the call. -/
structure RunResult where
  calls : List StatusCall
  outcome : Except String String
  sess : SessionCtx
  engine : EngineState
deriving Repr

instance : DecidableEq (Except String String) := fun a b =>
  match a, b with
  | .ok x, .ok y => if h : x = y then .isTrue (by rw [h]) else
      .isFalse (by intro hc; cases hc; exact h rfl)
  | .error x, .error y => if h : x = y then .isTrue (by rw [h]) else
      .isFalse (by intro hc; cases hc; exact h rfl)
  | .ok _, .error _ => .isFalse (by intro hc; cases hc)
  | .error _, .ok _ => .isFalse (by intro hc; cases hc)

/-- `ClaudeSession.sendMessageStreaming` (src/session.ts lines 108-310).

The function resets `stopRequested`, sets `isQueryRunning`, processes the
stream, and on a throw applies the catch logic of lines 279-296: an error
whose lowercased string form contains "cancel" or "abort" is suppressed
when the query already completed or a stop was requested; otherwise
`lastError` is recorded and the error is rethrown.  On the non-rethrow
path it emits the final `segment_end` (if text is pending) and `done`, and
returns the concatenated response parts, with the fixed fallback string
when the concatenation is empty (line 309).  Note that lines 108-158
contain no guard on `isQueryRunning`: the entry sequence runs regardless
of whether another run is active. -/
def runSession (checkCmd : String → Bool × String)
    (pathAllowed : String → Bool) (fmtTool : String → ToolInput → String)
    (sess : SessionCtx) (events : List SDKEvent)
    (streamErr : Option String) : RunResult :=
  let st0 := initEngine sess
  let afterLoop : StepOut :=
    match processEvents checkCmd pathAllowed fmtTool st0 events with
    | .cont st calls =>
      match streamErr with
      | some e => .thrown st calls e
      | none => .cont st calls
    | out => out
  match afterLoop with
  | .thrown st calls err =>
    let lower := jsLower err
    if (jsIncludes lower "cancel" ∨ jsIncludes lower "abort") ∧
        (st.queryCompleted ∨ st.stopRequested) then
      -- suppressed post-completion error: fall through to the success tail
      let tail := (if st.currentSegmentText ≠ "" then
          [(⟨"segment_end", st.currentSegmentText,
             some st.currentSegmentId, 0⟩ : StatusCall)] else []) ++
        [⟨"done", "", none, 0⟩]
      let ret := String.join st.responseParts
      { calls := calls ++ tail,
        outcome := .ok (if ret = "" then "No response from Claude." else ret),
        sess := { sessionId := st.sessionId, isRunning := false,
                  lastError := none, lastUsage := st.lastUsage,
                  lastTool := st.lastTool },
        engine := st }
    else
      { calls := calls, outcome := .error err,
        sess := { sessionId := st.sessionId, isRunning := false,
                  lastError := some (jsTake err 100),
                  lastUsage := st.lastUsage, lastTool := st.lastTool },
        engine := st }
  | .cont st calls =>
    let tail := (if st.currentSegmentText ≠ "" then
        [(⟨"segment_end", st.currentSegmentText,
           some st.currentSegmentId, 0⟩ : StatusCall)] else []) ++
      [⟨"done", "", none, 0⟩]
    let ret := String.join st.responseParts
    { calls := calls ++ tail,
      outcome := .ok (if ret = "" then "No response from Claude." else ret),
      sess := { sessionId := st.sessionId, isRunning := false,
                lastError := none, lastUsage := st.lastUsage,
                lastTool := st.lastTool },
      engine := st }

/-- `ClaudeSession.kill` (src/session.ts lines 315-319): clears the
resumable backend handle. -/
def sessionKill (sess : SessionCtx) : SessionCtx :=
  { sess with sessionId := none }

/-! ## Streaming Delivery Adapter (src/handlers/streaming.ts)

`createStatusCallback` renders status updates to Telegram, tracking per-run
state in a `StreamingState`: a map segment id → message, the list of
ephemeral tool/thinking messages, and a map segment id → last edit time.
Telegram message handles are modelled as the naturals handed out by a
fresh-id counter (`ctx.reply` always succeeds and returns the next id; the
source's try/catch fallbacks only strip the parse mode, which does not
affect which handle is tracked).  The markdown-to-HTML converter
`formatting.convertMarkdownToHtml` is the injected parameter `fmt`. -/

/-- Mirror of `StreamingState` (streaming.ts lines 73-77): JS `Map`s become
association lists in insertion order. -/
structure StreamingStateM where
  textMessages : List (Nat × Nat)
  toolMessages : List Nat
  lastEditTimes : List (Nat × Nat)
deriving DecidableEq, Repr

/-- The empty `new StreamingState()`. -/
def StreamingStateM.empty : StreamingStateM := ⟨[], [], []⟩

/-- JS `Map.prototype.set`: replace in place if the key exists, else append. -/
def mapSet (m : List (Nat × Nat)) (k v : Nat) : List (Nat × Nat) :=
  if (m.lookup k).isSome then
    m.map (fun p => if p.1 = k then (k, v) else p)
  else m ++ [(k, v)]

/-- One Telegram API call issued by the adapter.  `seg` tags the action
with the segment it renders (`none` for ephemeral thinking/tool
messages); the tag is bookkeeping for the statements below and does not
alter behaviour. -/
inductive TgAction where
  | create (seg : Option Nat) (msgId : Nat) (content : String)
  | edit (seg : Option Nat) (msgId : Nat) (content : String)
  | delete (msgId : Nat)
deriving DecidableEq, Repr

/-- Split an oversized rendered segment into chunks of 4000 characters
(streaming.ts lines 172-179: `for (let i = 0; i < formatted.length; i += 4000)`). -/
def chunkChars : List Char → List (List Char)
  | [] => []
  | c :: cs => (c :: cs).take 4000 :: chunkChars ((c :: cs).drop 4000)
termination_by l => l.length
decreasing_by
  simp only [List.length_drop, List.length_cons]
  omega

/-- Truncation applied by the adapter before rendering streamed text
(streaming.ts lines 124 and 137): cut to 4000 characters with an ellipsis. -/
def displayTrunc (s : String) : String :=
  if s.length > 4000 then jsTake s 4000 ++ "..." else s

/-- One invocation of the status callback (streaming.ts lines 107-196).
Returns the updated streaming state, the next fresh message id, and the
Telegram calls issued, in order. -/
def statusCallbackStep (fmt : String → String) (st : StreamingStateM)
    (nextId : Nat) (c : StatusCall) : StreamingStateM × Nat × List TgAction :=
  if c.stype = "thinking" then
    let preview := if c.content.length > 500 then jsTake c.content 500 ++ "..."
      else c.content
    ({ st with toolMessages := st.toolMessages ++ [nextId] }, nextId + 1,
     [.create none nextId ("🧠 <i>" ++ preview ++ "</i>")])
  else if c.stype = "tool" then
    ({ st with toolMessages := st.toolMessages ++ [nextId] }, nextId + 1,
     [.create none nextId c.content])
  else if c.stype = "text" then
    match c.segId with
    | none => (st, nextId, [])
    | some sid =>
      let now := c.time
      let lastEdit := (st.lastEditTimes.lookup sid).getD 0
      match st.textMessages.lookup sid with
      | none =>
        -- New segment - create message
        let formatted := fmt (displayTrunc c.content)
        ({ st with textMessages := mapSet st.textMessages sid nextId,
                   lastEditTimes := mapSet st.lastEditTimes sid now },
         nextId + 1, [.create (some sid) nextId formatted])
      | some msgId =>
        if now - lastEdit > 500 then
          -- Update existing segment message (throttled)
          let formatted := fmt (displayTrunc c.content)
          ({ st with lastEditTimes := mapSet st.lastEditTimes sid now },
           nextId, [.edit (some sid) msgId formatted])
        else (st, nextId, [])
  else if c.stype = "segment_end" then
    match c.segId with
    | none => (st, nextId, [])
    | some sid =>
      match st.textMessages.lookup sid with
      | none => (st, nextId, [])
      | some msgId =>
        if c.content ≠ "" then
          let formatted := fmt c.content
          if formatted.length ≤ 4096 then
            (st, nextId, [.edit (some sid) msgId formatted])
          else
            -- Too long - delete and split (the chunk replies are NOT
            -- recorded in textMessages)
            let chunks := chunkChars formatted.data
            (st, nextId + chunks.length,
             .delete msgId ::
               (chunks.enum.map (fun p =>
                 .create (some sid) (nextId + p.1) (⟨p.2⟩ : String))))
        else (st, nextId, [])
  else if c.stype = "done" then
    -- Delete tool messages - text messages stay
    (st, nextId, st.toolMessages.map .delete)
  else (st, nextId, [])

/-- Fold the adapter over a run's status calls. -/
def runAdapter (fmt : String → String) (st : StreamingStateM) (nextId : Nat) :
    List StatusCall → StreamingStateM × Nat × List TgAction
  | [] => (st, nextId, [])
  | c :: cs =>
    let (st', nid', acts) := statusCallbackStep fmt st nextId c
    let (st'', nid'', acts') := runAdapter fmt st' nid' cs
    (st'', nid'', acts ++ acts')

/-! ## Text handler: crash retry loop (src/handlers/text.ts)

`handleText` creates a fresh `StreamingState` and status callback, sends
the message through the query queue (which, under the concurrency cap,
invokes `session.sendMessageStreaming` directly), and wraps the call in a
retry loop with `MAX_RETRIES = 1`.  On any error it first deletes every
tracked message handle of the attempt (tool messages, then the values of
the text-message map); if the error has the Claude Code crash signature
and a retry remains it kills the session, notifies the user, rebuilds a
fresh `StreamingState`, and retries; otherwise it reports the error.
`formatUserError` (src/errors.ts) is the injected parameter `fmtErr`. -/

/-- Crash signature test (text.ts line 295). -/
def isClaudeCodeCrash (e : String) : Bool := jsIncludes e "exited with code"

/-- Cancellation test of the final error handling (text.ts line 330). -/
def isCancelErr (e : String) : Bool :=
  jsIncludes e "abort" || jsIncludes e "cancel"

/-- One attempt's provider behaviour: the SDK events the stream yields and
the error, if any, it ends by throwing. -/
structure HandlerAttempt where
  events : List SDKEvent
  streamErr : Option String
deriving DecidableEq, Repr

/-- Chat-surface event of the handler flow, in program order.  `attemptAct`
wraps a Telegram call issued while rendering attempt `n`; `cleanupDelete`
is a deletion from the catch block's rollback loops; `killSession` marks
`session.kill()`; `handlerReply` is a message sent by the handler itself. -/
inductive HEvent where
  | attemptAct (attempt : Nat) (act : TgAction)
  | cleanupDelete (attempt : Nat) (msgId : Nat)
  | killSession
  | handlerReply (msgId : Nat) (text : String)
deriving DecidableEq, Repr

/-- Terminal outcome of `handleText`'s retry loop. -/
inductive HandlerOutcome where
  | success (response : String)
  | stopped
  | interrupted
  | crashReported
  | errorReported (err : String)
deriving DecidableEq, Repr

/-- Result of the retry loop: the ordered chat-surface trace, the session
state after the loop, the next fresh message id, and the outcome. -/
structure HandlerRun where
  trace : List HEvent
  sess : SessionCtx
  nextMsgId : Nat
  outcome : HandlerOutcome
deriving Repr

/-- The catch block's rollback (text.ts lines 297-311): delete the tracked
tool messages, then the tracked text-segment messages, of attempt `n`. -/
def cleanupDeletes (n : Nat) (adp : StreamingStateM) : List HEvent :=
  (adp.toolMessages ++ adp.textMessages.map Prod.snd).map (HEvent.cleanupDelete n)

/-- Final error handling shared by both attempts (text.ts lines 326-349).
`interruptFlag` models `session.consumeInterruptFlag()`.
Modelled from the spec: the interrupt flag itself lives in the newer
session module (`markInterrupted` sets a "superseded by newer request"
flag that callers consume after an abort-shaped error); only its consumer
is visible in src/handlers/text.ts. -/
def handleFinalError (fmtErr : String → String) (interruptFlag : Bool)
    (pre : List HEvent) (sess : SessionCtx) (nid : Nat) (e : String) :
    HandlerRun :=
  if isCancelErr e then
    if interruptFlag then ⟨pre, sess, nid, .interrupted⟩
    else ⟨pre ++ [.handlerReply nid "🛑 Query stopped."], sess, nid + 1,
          .stopped⟩
  else if isClaudeCodeCrash e then
    ⟨pre ++ [.killSession, .handlerReply nid
        "⚠️ Claude Code crashed and the session was reset. Please try again."],
     sessionKill sess, nid + 1, .crashReported⟩
  else
    ⟨pre ++ [.handlerReply nid ("❌ " ++ fmtErr e)], sess, nid + 1,
     .errorReported e⟩

/-- The retry loop of `handleText` (text.ts lines 276-351), unrolled for
`MAX_RETRIES = 1`: attempt 0 runs with a fresh `StreamingState`; on a
crash-signature error the tracked handles are deleted, the session is
killed, the user is notified, and attempt 1 runs with a fresh
`StreamingState`; any error of the final attempt goes to
`handleFinalError`.  Message ids continue across attempts (Telegram hands
out fresh ids). -/
def handleTextRetry (fmt : String → String)
    (checkCmd : String → Bool × String) (pathAllowed : String → Bool)
    (fmtTool : String → ToolInput → String) (fmtErr : String → String)
    (interruptFlag : Bool) (sess : SessionCtx) (nid : Nat)
    (a0 a1 : HandlerAttempt) : HandlerRun :=
  let r0 := runSession checkCmd pathAllowed fmtTool sess a0.events a0.streamErr
  let (adp0, nid0, acts0) := runAdapter fmt StreamingStateM.empty nid r0.calls
  let tr0 := acts0.map (HEvent.attemptAct 0)
  match r0.outcome with
  | .ok resp => ⟨tr0, r0.sess, nid0, .success resp⟩
  | .error e =>
    let pre0 := tr0 ++ cleanupDeletes 0 adp0
    if isClaudeCodeCrash e then
      let sess1 := sessionKill r0.sess
      let pre0 := pre0 ++ [.killSession,
        .handlerReply nid0 "⚠️ Claude crashed, retrying..."]
      let r1 := runSession checkCmd pathAllowed fmtTool sess1 a1.events
        a1.streamErr
      let (adp1, nid1, acts1) :=
        runAdapter fmt StreamingStateM.empty (nid0 + 1) r1.calls
      let tr1 := pre0 ++ acts1.map (HEvent.attemptAct 1)
      match r1.outcome with
      | .ok resp => ⟨tr1, r1.sess, nid1, .success resp⟩
      | .error e1 =>
        handleFinalError fmtErr interruptFlag (tr1 ++ cleanupDeletes 1 adp1)
          r1.sess nid1 e1
    else
      handleFinalError fmtErr interruptFlag pre0 r0.sess nid0 e

/-- Entry decision of `handleText` (text.ts lines 250-261): when the
session is already running the message is added to the pending list and a
"Queued" notice is shown; no run is started.  Otherwise the retry loop
executes. -/
inductive HandlerEntry where
  | queuedPending (notice : String)
  | executed (run : HandlerRun)
deriving Repr

/-- `handleText` from the busy check onward (text.ts lines 250-351).
`pendingCount` models `session.pendingCount` after the insertion. -/
def handleTextEntry (fmt : String → String)
    (checkCmd : String → Bool × String) (pathAllowed : String → Bool)
    (fmtTool : String → ToolInput → String) (fmtErr : String → String)
    (interruptFlag : Bool) (pendingCount : Nat) (sess : SessionCtx)
    (nid : Nat) (message : String) (a0 a1 : HandlerAttempt) : HandlerEntry :=
  if sess.isRunning then
    let preview := if message.length > 50 then jsTake message 50 ++ "..."
      else message
    .queuedPending ("📥 Queued (" ++ toString pendingCount ++
      " pending): <code>" ++ preview ++ "</code>\n\nUse /pending to view and execute.")
  else
    .executed (handleTextRetry fmt checkCmd pathAllowed fmtTool fmtErr
      interruptFlag sess nid a0 a1)

/-! ## Observation functions over event streams -/

/-- The text contents pushed to `responseParts`, in order, while processing
one assistant message's blocks (src/session.ts line 251). -/
def blockTexts : List Block → List String
  | [] => []
  | .text t _ :: bs => t :: blockTexts bs
  | .thinking _ :: bs => blockTexts bs
  | .toolUse _ _ :: bs => blockTexts bs

/-- All text contents of a stream, in arrival order. -/
def eventTexts : List SDKEvent → List String
  | [] => []
  | .assistant _ bs :: es => blockTexts bs ++ eventTexts es
  | .result _ _ :: es => eventTexts es

/-- The calls component of a step outcome. -/
def StepOut.theCalls : StepOut → List StatusCall
  | .cont _ calls => calls
  | .thrown _ calls _ => calls

/-- The state component of a step outcome. -/
def StepOut.theState : StepOut → EngineState
  | .cont st _ => st
  | .thrown st _ _ => st

/-- The segment a Telegram action renders, when any (the bookkeeping tag of
`TgAction`). -/
def TgAction.segOf : TgAction → Option Nat
  | .create s _ _ => s
  | .edit s _ _ => s
  | .delete _ => none

/-- Segment-tracking invariant of a processing step from state `st`:
segment ids never decrease; every forwarded `text` update is longer than
20 characters and is dominated either by a `segment_end` emitted for its
segment in the same step or by the still-open segment's accumulated text;
and the segment open on entry is likewise either finalized during the
step (by a `segment_end` at least as long as its accumulated text) or
still open, having only grown. -/
def segTracking (st : EngineState) (out : StepOut) : Prop :=
  st.currentSegmentId ≤ out.theState.currentSegmentId ∧
  (∀ c ∈ out.theCalls, c.stype = "text" →
    20 < c.content.length ∧
    ∃ k, c.segId = some k ∧
      ((∃ f, StatusCall.mk "segment_end" f (some k) 0 ∈ out.theCalls ∧
          c.content.length ≤ f.length) ∨
       (k = out.theState.currentSegmentId ∧
        c.content.length ≤ out.theState.currentSegmentText.length))) ∧
  ((∃ f, StatusCall.mk "segment_end" f (some st.currentSegmentId) 0 ∈
      out.theCalls ∧ st.currentSegmentText.length ≤ f.length) ∨
   (st.currentSegmentId = out.theState.currentSegmentId ∧
    st.currentSegmentText.length ≤ out.theState.currentSegmentText.length))

/-- Textual invariant of a processing step from state `st`: the
concatenated response parts only grow on the right; and whenever the
entry state's concatenated response parts end with its open segment's
accumulated text, the same holds on exit and every `segment_end` emitted
during the step carries an infix of the concatenated response parts. -/
def textTracking (st : EngineState) (out : StepOut) : Prop :=
  (∃ suffix : String, String.join out.theState.responseParts =
    String.join st.responseParts ++ suffix) ∧
  ((∃ pre : String, String.join st.responseParts =
      pre ++ st.currentSegmentText) →
    (∃ pre : String, String.join out.theState.responseParts =
      pre ++ out.theState.currentSegmentText) ∧
    (∀ f k, StatusCall.mk "segment_end" f (some k) 0 ∈ out.theCalls →
      f.data <:+: (String.join out.theState.responseParts).data))

/-! ## Concrete inputs for the crash-retry leak analysis

`convertMarkdownToHtml` (the injected `fmt`) leaves a string consisting
solely of the plain letter 'a' or 'b' unchanged: such input contains no
markdown construct and no HTML special character, so the converter's
escaping and tag rewriting do not fire.  The instantiation `fmt := id`
below is therefore the source converter's faithful restriction to these
inputs. -/

/-- A 4097-character segment: one character over the adapter's 4096 chunk
threshold (streaming.ts line 166). -/
def bigA : String := ⟨List.replicate 4097 'a'⟩

/-- A 25-character retry response: over the engine's 20-character
streaming gate, under every adapter threshold. -/
def okT : String := ⟨List.replicate 25 'b'⟩

/-- First 4000-character chunk of `bigA` after the oversize split. -/
def chunkA1 : String := ⟨List.replicate 4000 'a'⟩

/-- Remaining 97-character chunk of `bigA` after the oversize split. -/
def chunkA2 : String := ⟨List.replicate 97 'a'⟩

/-- A provider stream error with the Claude Code crash signature
(text.ts line 295 checks for the substring "exited with code"). -/
def crashMsgA : String := "Claude Code process exited with code 1"

/-- Whether a handler-trace event is a chat-message creation with handle
`m` made while rendering attempt `n` (content-independent observer). -/
def hevCreates (n m : Nat) : HEvent → Bool
  | .attemptAct k (.create _ id _) => k == n && id == m
  | _ => false

/-- Whether a handler-trace event deletes the chat message with handle
`m`, by either an adapter delete call or a rollback delete
(content-independent observer). -/
def hevDeletes (m : Nat) : HEvent → Bool
  | .attemptAct _ (.delete id) => id == m
  | .cleanupDelete _ id => id == m
  | _ => false

/-- Command-safety collaborator instance: every command allowed (no
blocked pattern fires on the inputs below, which issue no Bash call). -/
def cc0 : String → Bool × String := fun _ => (true, "")

/-- Path-allowance collaborator instance: every path allowed. -/
def pa0 : String → Bool := fun _ => true

/-- Tool-status formatter instance: a fixed short description. -/
def ft0 : String → ToolInput → String := fun _ _ => "t"

/-- Markdown-to-HTML converter restricted to plain letter strings: the
identity (see the module comment above). -/
def fmt0 : String → String := fun s => s

/-- User-error formatter instance: the identity. -/
def fe0 : String → String := fun s => s

/-- A fresh session. -/
def sess0 : SessionCtx := ⟨none, false, none, none, none⟩

/-- Attempt 0 of the leak scenario: a 4097-character text segment closed
by a tool invocation, then a provider crash. -/
def atk0 : HandlerAttempt :=
  ⟨[SDKEvent.assistant none
      [Block.text bigA 1000, Block.toolUse "Grep" ⟨"", ""⟩]],
   some crashMsgA⟩

/-- Attempt 1 of the leak scenario: a 25-character text response,
completing normally. -/
def atk1 : HandlerAttempt :=
  ⟨[SDKEvent.assistant none [Block.text okT 1000]], none⟩

/-! ## General helper lemmas -/

theorem jsIncludesAux_nil_pat (s : List Char) : jsIncludesAux [] s = true := by
  cases s <;> simp [jsIncludesAux, List.isPrefixOf]

theorem jsIncludesAux_of_middle (p : List Char) :
    ∀ (l₁ l₂ : List Char), jsIncludesAux p (l₁ ++ p ++ l₂) = true := by
  intro l₁
  induction l₁ with
  | nil =>
    intro l₂
    match p with
    | [] => exact jsIncludesAux_nil_pat l₂
    | c :: p' =>
      simp only [List.nil_append, List.cons_append, jsIncludesAux,
        Bool.or_eq_true]
      left
      rw [List.isPrefixOf_iff_prefix]
      exact ⟨l₂, by simp⟩
  | cons c l₁ ih =>
    intro l₂
    simp only [List.cons_append, jsIncludesAux, Bool.or_eq_true]
    right
    exact ih l₂

/-- A string built as `pre ++ mid ++ post` contains `mid` as a substring. -/
theorem jsIncludes_of_middle (pre mid post : String) :
    jsIncludes (pre ++ mid ++ post) mid = true := by
  show jsIncludesAux mid.data (pre ++ mid ++ post).data = true
  have h : (pre ++ mid ++ post).data = pre.data ++ mid.data ++ post.data := by
    cases pre; cases mid; cases post; rfl
  rw [h]
  exact jsIncludesAux_of_middle mid.data pre.data post.data

theorem takeReplicate {α : Type} (a : α) :
    ∀ n m, (List.replicate m a).take n = List.replicate (min n m) a := by
  intro n
  induction n with
  | zero => intro m; simp
  | succ n ih =>
    intro m
    cases m with
    | zero => simp
    | succ m =>
      rw [List.replicate_succ, List.take_succ_cons, ih m,
        Nat.succ_min_succ, ← List.replicate_succ]

theorem dropReplicate {α : Type} (a : α) :
    ∀ n m, (List.replicate m a).drop n = List.replicate (m - n) a := by
  intro n
  induction n with
  | zero => simp
  | succ n ih =>
    intro m
    cases m with
    | zero => simp
    | succ m =>
      rw [List.replicate_succ, List.drop_succ_cons, ih m, Nat.succ_sub_succ]

/-- Anything in the left part of an append sits at a smaller index than
anything in the right part. -/
theorem mem_append_before {α : Type} [DecidableEq α] {x y : α}
    {l₁ l₂ : List α} (hx : x ∈ l₁) (hy : y ∈ l₂) :
    ∃ i j : Nat, i < j ∧ (l₁ ++ l₂)[i]? = some x ∧ (l₁ ++ l₂)[j]? = some y := by
  obtain ⟨i, hi, hix⟩ := List.getElem_of_mem hx
  obtain ⟨j, hj, hjy⟩ := List.getElem_of_mem hy
  refine ⟨i, l₁.length + j, by omega, ?_, ?_⟩
  · rw [List.getElem?_append_left (by omega)]
    simp [List.getElem?_eq_getElem, hi, hix]
  · rw [List.getElem?_append_right (by omega)]
    simp only [Nat.add_sub_cancel_left]
    simp [List.getElem?_eq_getElem, hj, hjy]

/-! ## Theorems: admission controller -/

/-- C3: when the in-flight count is at or above the concurrency cap and the
queue is at or above its maximum size, `sendMessage` rejects immediately
with the queue-full error, whose message contains the current and maximum
queue occupancy, and the queue is returned unchanged (nothing appended or
removed). -/
theorem C3_queue_full_rejection (maxConcurrent maxQueueSize active : Nat)
    (queue : List QueuedQuery) (q : QueuedQuery)
    (hactive : active ≥ maxConcurrent) (hfull : queue.length ≥ maxQueueSize) :
    queueSendMessage maxConcurrent maxQueueSize active queue q =
      (queue, .rejected ("Queue full (" ++ toString queue.length ++ "/" ++
        toString maxQueueSize ++ "). Try again later.")) ∧
    ∀ msg, (queueSendMessage maxConcurrent maxQueueSize active queue q).2 =
        .rejected msg →
      jsIncludes msg (toString queue.length) = true ∧
      jsIncludes msg (toString maxQueueSize) = true := by
  have h1 : ¬(active < maxConcurrent) := by omega
  have heq : queueSendMessage maxConcurrent maxQueueSize active queue q =
      (queue, .rejected ("Queue full (" ++ toString queue.length ++ "/" ++
        toString maxQueueSize ++ "). Try again later.")) := by
    simp [queueSendMessage, h1, hfull]
  refine ⟨heq, ?_⟩
  intro msg hmsg
  rw [heq] at hmsg
  simp only [SubmitOutcome.rejected.injEq] at hmsg
  subst hmsg
  constructor
  · have := jsIncludes_of_middle "Queue full (" (toString queue.length)
      ("/" ++ toString maxQueueSize ++ "). Try again later.")
    simpa [String.append_assoc] using this
  · have := jsIncludes_of_middle
      ("Queue full (" ++ toString queue.length ++ "/")
      (toString maxQueueSize) "). Try again later."
    simpa [String.append_assoc] using this

/-- C3 witness: a concrete full-queue rejection (cap 2, queue size 3). -/
theorem C3_queue_full_rejection_witness :
    queueSendMessage 2 3 2
      [⟨"m1", "u", 1, none, 0⟩, ⟨"m2", "u", 1, none, 1⟩,
       ⟨"m3", "u", 1, none, 2⟩] ⟨"m4", "u", 2, none, 3⟩ =
      ([⟨"m1", "u", 1, none, 0⟩, ⟨"m2", "u", 1, none, 1⟩,
        ⟨"m3", "u", 1, none, 2⟩],
       .rejected "Queue full (3/3). Try again later.") ∧
    jsIncludes "Queue full (3/3). Try again later." "3" = true := by
  have h := C3_queue_full_rejection 2 3 2
    [⟨"m1", "u", 1, none, 0⟩, ⟨"m2", "u", 1, none, 1⟩,
     ⟨"m3", "u", 1, none, 2⟩] ⟨"m4", "u", 2, none, 3⟩
    (by decide) (by decide)
  refine ⟨?_, ?_⟩
  · exact h.1.trans (by decide)
  · exact (h.2 "Queue full (3/3). Try again later."
      (by rw [h.1]; decide)).1

/-- C9: `clear()` rejects every queued entry with the "Queue cleared"
error, in queue order, leaves the queue empty, and does not touch the
in-flight component: in-flight entries (which are never also in the queue)
receive no rejection from `clear`. -/
theorem C9_clear_rejects_queued_only (sys : AdmissionSystem) :
    (admissionClear sys).1.qstate.queue = [] ∧
    (admissionClear sys).1.inFlight = sys.inFlight ∧
    (admissionClear sys).2 =
      sys.qstate.queue.map (fun q => (q, "Queue cleared")) ∧
    (∀ e ∈ sys.inFlight, e ∉ sys.qstate.queue →
      ∀ m, (e, m) ∉ (admissionClear sys).2) := by
  refine ⟨rfl, rfl, rfl, ?_⟩
  intro e _ hnot m hmem
  simp only [admissionClear, queueClear, List.mem_map] at hmem
  obtain ⟨q, hq, heq⟩ := hmem
  exact hnot (by cases heq; exact hq)

/-- C9 witness: clearing a system with one queued and one in-flight entry. -/
theorem C9_clear_rejects_queued_only_witness :
    (admissionClear ⟨⟨[⟨"queued", "u", 1, none, 5⟩], false⟩,
        [⟨"running", "u", 2, none, 1⟩]⟩).1.inFlight =
      [⟨"running", "u", 2, none, 1⟩] ∧
    (admissionClear ⟨⟨[⟨"queued", "u", 1, none, 5⟩], false⟩,
        [⟨"running", "u", 2, none, 1⟩]⟩).2 =
      [(⟨"queued", "u", 1, none, 5⟩, "Queue cleared")] ∧
    (⟨"running", "u", 2, none, 1⟩, "Queue cleared") ∉
      (admissionClear ⟨⟨[⟨"queued", "u", 1, none, 5⟩], false⟩,
        [⟨"running", "u", 2, none, 1⟩]⟩).2 := by
  have h := C9_clear_rejects_queued_only
    ⟨⟨[⟨"queued", "u", 1, none, 5⟩], false⟩, [⟨"running", "u", 2, none, 1⟩]⟩
  refine ⟨h.2.1, h.2.2.1.trans (by decide), ?_⟩
  exact h.2.2.2 ⟨"running", "u", 2, none, 1⟩ (by decide) (by decide)
    "Queue cleared"

/-- C4: FIFO dispatch.  While the controller is not mid-drain and capacity
is available, `n` dispatch steps hand out exactly the first `n` queued
entries in arrival order (the head is always dispatched first), so for any
two queue positions `i < j`, when the entry at `j` is dispatched the entry
at `i` was dispatched at an earlier step: no entry ever overtakes an
earlier one. -/
theorem C4_fifo_dispatch (maxConcurrent active : Nat) (s : QueueState)
    (n : Nat) (hproc : s.processing = false) (hcap : active < maxConcurrent) :
    queueProcessNextN maxConcurrent active s n =
      (⟨s.queue.drop n, false⟩, s.queue.take n) ∧
    ∀ i j : Nat, i < j → j < n →
      (queueProcessNextN maxConcurrent active s n).2[i]? = s.queue[i]? ∧
      (queueProcessNextN maxConcurrent active s n).2[j]? = s.queue[j]? := by
  have key : ∀ (n : Nat) (q : List QueuedQuery),
      queueProcessNextN maxConcurrent active ⟨q, false⟩ n =
        (⟨q.drop n, false⟩, q.take n) := by
    intro n
    induction n with
    | zero => intro q; rfl
    | succ n ih =>
      intro q
      cases q with
      | nil =>
        simp [queueProcessNextN, queueProcessNext]
      | cons a rest =>
        have hstep : queueProcessNext maxConcurrent active ⟨a :: rest, false⟩ =
            (⟨rest, false⟩, some a) := by
          simp [queueProcessNext, Nat.not_le.mpr hcap]
        simp [queueProcessNextN, hstep, ih rest]
  have hs : s = ⟨s.queue, false⟩ := by cases s; simp_all
  have h1 : queueProcessNextN maxConcurrent active s n =
      (⟨s.queue.drop n, false⟩, s.queue.take n) := by
    rw [hs]; exact key n s.queue
  refine ⟨h1, ?_⟩
  intro i j hij hjn
  rw [h1]
  exact ⟨List.getElem?_take_of_lt (by omega),
    List.getElem?_take_of_lt (by omega)⟩

/-- C4 witness: with entries A then B queued and one free slot per step,
two steps dispatch A first, then B. -/
theorem C4_fifo_dispatch_witness :
    queueProcessNextN 2 0 ⟨[⟨"A", "u", 1, none, 0⟩, ⟨"B", "u", 2, none, 9⟩],
        false⟩ 2 =
      (⟨[], false⟩, [⟨"A", "u", 1, none, 0⟩, ⟨"B", "u", 2, none, 9⟩]) ∧
    (queueProcessNextN 2 0 ⟨[⟨"A", "u", 1, none, 0⟩, ⟨"B", "u", 2, none, 9⟩],
        false⟩ 2).2[0]? = some ⟨"A", "u", 1, none, 0⟩ := by
  have h := C4_fifo_dispatch 2 0
    ⟨[⟨"A", "u", 1, none, 0⟩, ⟨"B", "u", 2, none, 9⟩], false⟩ 2
    (by decide) (by decide)
  refine ⟨h.1.trans (by decide), ?_⟩
  exact ((h.2 0 1 (by decide) (by decide)).1).trans (by decide)

/-! ## Theorems: session execution engine -/

theorem processBlocks_cont_inv (cc : String → Bool × String)
    (pa : String → Bool) (ft : String → ToolInput → String) :
    ∀ (bs : List Block) (st st' : EngineState) (calls : List StatusCall),
      processBlocks cc pa ft st bs = .cont st' calls →
      st'.responseParts = st.responseParts ++ blockTexts bs ∧
      st'.stopRequested = st.stopRequested ∧
      st'.queryCompleted = st.queryCompleted := by
  intro bs
  induction bs with
  | nil =>
    intro st st' calls h
    simp only [processBlocks] at h
    cases h
    simp [blockTexts]
  | cons b bs ih =>
    intro st st' calls h
    simp only [processBlocks] at h
    cases hb : processBlock cc pa ft st b with
    | thrown st₁ calls₁ e =>
      rw [hb] at h
      simp at h
    | cont st₁ calls₁ =>
      rw [hb] at h
      dsimp only at h
      cases hrest : processBlocks cc pa ft st₁ bs with
      | thrown st₂ calls₂ e =>
        rw [hrest] at h
        simp [StepOut.withCalls] at h
      | cont st₂ calls₂ =>
        rw [hrest] at h
        simp only [StepOut.withCalls, StepOut.cont.injEq] at h
        obtain ⟨hst, -⟩ := h
        subst hst
        obtain ⟨h1, h2, h3⟩ := ih st₁ st₂ calls₂ hrest
        have hstep : st₁.responseParts = st.responseParts ++ blockTexts [b] ∧
            st₁.stopRequested = st.stopRequested ∧
            st₁.queryCompleted = st.queryCompleted := by
          cases b with
          | thinking t =>
            simp only [processBlock] at hb
            split at hb <;> (cases hb; simp [blockTexts])
          | toolUse name input =>
            simp only [processBlock] at hb
            split at hb
            · cases hb
            · split at hb
              · cases hb
              · split at hb <;> split at hb <;>
                  (cases hb; simp [blockTexts])
          | text t now =>
            simp only [processBlock] at hb
            split at hb <;> (cases hb; simp [blockTexts])
        refine ⟨?_, ?_, ?_⟩
        · rw [h1, hstep.1, List.append_assoc]
          cases b <;> simp [blockTexts]
        · rw [h2, hstep.2.1]
        · rw [h3, hstep.2.2]

theorem captureSessionId_inv (st : EngineState) (e : SDKEvent) :
    (captureSessionId st e).responseParts = st.responseParts ∧
    (captureSessionId st e).stopRequested = st.stopRequested ∧
    (captureSessionId st e).queryCompleted = st.queryCompleted := by
  cases e <;> simp only [captureSessionId] <;> split <;> simp

theorem processEvents_cont_inv (cc : String → Bool × String)
    (pa : String → Bool) (ft : String → ToolInput → String) :
    ∀ (es : List SDKEvent) (st st' : EngineState) (calls : List StatusCall),
      st.stopRequested = false →
      processEvents cc pa ft st es = .cont st' calls →
      st'.responseParts = st.responseParts ++ eventTexts es ∧
      st'.stopRequested = false := by
  intro es
  induction es with
  | nil =>
    intro st st' calls hstop h
    simp only [processEvents] at h
    cases h
    simp [eventTexts, hstop]
  | cons e es ih =>
    intro st st' calls hstop h
    simp only [processEvents, hstop] at h
    rw [if_neg (by simp)] at h
    obtain ⟨hcap1, hcap2, hcap3⟩ := captureSessionId_inv st e
    cases e with
    | assistant sid blocks =>
      dsimp only at h
      cases hb : processBlocks cc pa ft (captureSessionId st
          (.assistant sid blocks)) blocks with
      | thrown st₁ calls₁ err =>
        rw [hb] at h
        simp at h
      | cont st₁ calls₁ =>
        rw [hb] at h
        dsimp only at h
        cases hrest : processEvents cc pa ft st₁ es with
        | thrown st₂ calls₂ err =>
          rw [hrest] at h
          simp [StepOut.withCalls] at h
        | cont st₂ calls₂ =>
          rw [hrest] at h
          simp only [StepOut.withCalls, StepOut.cont.injEq] at h
          obtain ⟨hst, -⟩ := h
          subst hst
          obtain ⟨hb1, hb2, -⟩ :=
            processBlocks_cont_inv cc pa ft blocks _ _ _ hb
          obtain ⟨he1, he2⟩ := ih st₁ st₂ calls₂ (by rw [hb2, hcap2, hstop])
            hrest
          refine ⟨?_, he2⟩
          rw [he1, hb1, hcap1, eventTexts, List.append_assoc]
    | result sid usage =>
      dsimp only at h
      obtain ⟨he1, he2⟩ := ih _ st' calls (by simp [hcap2, hstop]) h
      refine ⟨?_, he2⟩
      rw [he1]
      dsimp only
      rw [hcap1, eventTexts]

/-- C7 counterexample: a run that completes successfully with no text
content returns the fixed fallback string "No response from Claude."
(src/session.ts line 309, `responseParts.join("") || "No response from
Claude."`), not the empty concatenation the claim requires. -/
theorem C7_counterexample :
    (runSession (fun _ => (true, "")) (fun _ => true) (fun n _ => n)
      ⟨none, false, none, none, none⟩ [.result none none] none).outcome =
      .ok "No response from Claude." ∧
    ("No response from Claude." : String) ≠ "" := by
  constructor
  · rfl
  · decide

/-- C7 (amended): a run that reaches terminal success returns the
concatenation, in arrival order, of all text contents of the whole run
when that concatenation is non-empty; when no text arrived (empty
concatenation) it returns the fixed string "No response from Claude."
instead of the empty string. -/
theorem C7_success_returns_concatenation (cc : String → Bool × String)
    (pa : String → Bool) (ft : String → ToolInput → String)
    (sess : SessionCtx) (es : List SDKEvent) (streamErr : Option String)
    (st : EngineState) (calls : List StatusCall) (r : String)
    (hc : processEvents cc pa ft (initEngine sess) es = .cont st calls)
    (hr : (runSession cc pa ft sess es streamErr).outcome = .ok r) :
    r = if String.join (eventTexts es) = "" then "No response from Claude."
        else String.join (eventTexts es) := by
  have hinv := processEvents_cont_inv cc pa ft es (initEngine sess) st calls
    rfl hc
  have hparts : st.responseParts = eventTexts es := by
    have := hinv.1
    simpa [initEngine] using this
  simp only [runSession] at hr
  rw [hc] at hr
  cases streamErr with
  | none =>
    have h := (Except.ok.injEq _ _).mp hr
    rw [hparts] at h
    exact h.symm
  | some e =>
    try dsimp only at hr
    split at hr
    · have h := (Except.ok.injEq _ _).mp hr
      rw [hparts] at h
      exact h.symm
    · simp at hr

/-- C7 witness: applying the amended result theorem to a concrete empty
run. -/
theorem C7_success_returns_concatenation_witness :
    "No response from Claude." =
      if String.join (eventTexts []) = "" then "No response from Claude."
      else String.join (eventTexts []) := by
  exact C7_success_returns_concatenation (fun _ => (true, ""))
    (fun _ => true) (fun n _ => n) ⟨none, false, none, none, none⟩ [] none
    (initEngine ⟨none, false, none, none, none⟩) []
    "No response from Claude." rfl rfl

/-- C2 counterexample: `sendMessageStreaming` contains no check of
`isQueryRunning` on entry (src/session.ts lines 108-158): invoked on a
Session whose running flag is set (Streaming), it does not fail with any
error — the call proceeds and completes normally, here returning the
fallback response. -/
theorem C2_counterexample :
    (runSession (fun _ => (true, "")) (fun _ => true) (fun n _ => n)
      ⟨some "sid", true, none, none, none⟩ [.result none none] none).outcome =
      .ok "No response from Claude." := by
  rfl

/-- C2 (amended): the engine has no single-flight guard: a second call
while Streaming is not rejected (the run's behaviour is entirely
independent of the running flag).  Overlap is instead avoided one layer
up: the text handler checks `session.isRunning` and, when set, adds the
message to the pending list and replies with a "Queued" notice, starting
no run (src/handlers/text.ts lines 250-261). -/
theorem C2_no_single_flight_guard (fmt : String → String)
    (cc : String → Bool × String) (pa : String → Bool)
    (ft : String → ToolInput → String) (fe : String → String)
    (iflag : Bool) (pc : Nat) (sess : SessionCtx) (nid : Nat) (msg : String)
    (a0 a1 : HandlerAttempt) (hrun : sess.isRunning = true) :
    handleTextEntry fmt cc pa ft fe iflag pc sess nid msg a0 a1 =
      .queuedPending ("📥 Queued (" ++ toString pc ++ " pending): <code>" ++
        (if msg.length > 50 then jsTake msg 50 ++ "..." else msg) ++
        "</code>\n\nUse /pending to view and execute.") ∧
    ∀ (sid : Option String) (le : Option String) (lu : Option Nat)
      (lt : Option String) (es : List SDKEvent) (serr : Option String),
      runSession cc pa ft ⟨sid, true, le, lu, lt⟩ es serr =
      runSession cc pa ft ⟨sid, false, le, lu, lt⟩ es serr := by
  constructor
  · simp [handleTextEntry, hrun]
  · intro sid le lu lt es serr
    rfl

/-- C2 witness: a concrete busy-session call is queued, not run. -/
theorem C2_no_single_flight_guard_witness :
    handleTextEntry (fun s => s) (fun _ => (true, "")) (fun _ => true)
      (fun n _ => n) (fun e => e) false 1 ⟨some "s", true, none, none, none⟩
      0 "hi" ⟨[], none⟩ ⟨[], none⟩ =
      .queuedPending ("📥 Queued (" ++ toString 1 ++
        " pending): <code>" ++
        (if ("hi" : String).length > 50 then jsTake "hi" 50 ++ "..." else "hi")
        ++ "</code>\n\nUse /pending to view and execute.") := by
  exact (C2_no_single_flight_guard (fun s => s) (fun _ => (true, ""))
    (fun _ => true) (fun n _ => n) (fun e => e) false 1
    ⟨some "s", true, none, none, none⟩ 0 "hi" ⟨[], none⟩ ⟨[], none⟩ rfl).1

/-! ## Theorems: streaming delivery adapter -/

/-- C5 counterexample: segment 0 is already rendered (message 5, last
edited at t=1000).  Two `text` updates for it arrive 200 ms apart, at
t=1200 and t=1400.  The adapter issues zero transport edit calls (both
fall inside the 500 ms throttle window of the last edit,
streaming.ts line 134), not exactly one. -/
theorem C5_counterexample :
    runAdapter (fun s => s) ⟨[(0, 5)], [], [(0, 1000)]⟩ 6
      [⟨"text", "hello", some 0, 1200⟩,
       ⟨"text", "hello world", some 0, 1400⟩] =
      (⟨[(0, 5)], [], [(0, 1000)]⟩, 6, []) := by
  rfl

theorem lookup_map_overwrite (k v : Nat) :
    ∀ m : List (Nat × Nat), (List.lookup k m).isSome = true →
      List.lookup k (m.map (fun p => if p.1 = k then (k, v) else p)) =
        some v := by
  intro m
  induction m with
  | nil => intro h; simp at h
  | cons p m ih =>
    intro h
    rcases p with ⟨a, b⟩
    by_cases hp : a = k
    · subst hp
      simp
    · have hne : (k == a) = false := by simp [Ne.symm hp]
      rw [List.map_cons, if_neg (by simpa using hp)]
      simp only [List.lookup_cons, hne] at h ⊢
      exact ih h

theorem lookup_mapSet_self (m : List (Nat × Nat)) (k v : Nat) :
    List.lookup k (mapSet m k v) = some v := by
  by_cases h : (List.lookup k m).isSome = true
  · simp only [mapSet, h, if_true]
    exact lookup_map_overwrite k v m h
  · have hn : List.lookup k m = none := by
      cases hl : List.lookup k m with
      | none => rfl
      | some b => rw [hl] at h; simp at h
    simp only [mapSet, hn, Option.isSome_none, Bool.false_eq_true, if_false]
    rw [List.lookup_append, hn, Option.none_or, List.lookup_cons_self]

/-- C5 (amended): for two `text` updates for the same already-rendered
segment arriving at most the throttle interval apart, the adapter issues
at most one transport edit call (possibly none, when both fall inside the
throttle window of the segment's previous edit); an edit, when issued, is
a full-content replacement carrying the formatted (truncated) text passed
with the event that triggered it — the segment's accumulated text at that
moment. -/
theorem C5_throttle_at_most_one_edit (fmt : String → String)
    (st : StreamingStateM) (nid : Nat) (sid m : Nat) (c1 c2 : StatusCall)
    (h1t : c1.stype = "text") (h2t : c2.stype = "text")
    (h1s : c1.segId = some sid) (h2s : c2.segId = some sid)
    (hm : List.lookup sid st.textMessages = some m)
    (hgap : c2.time - c1.time ≤ 500) :
    (runAdapter fmt st nid [c1, c2]).2.2 = [] ∨
    (runAdapter fmt st nid [c1, c2]).2.2 =
      [.edit (some sid) m (fmt (displayTrunc c1.content))] ∨
    (runAdapter fmt st nid [c1, c2]).2.2 =
      [.edit (some sid) m (fmt (displayTrunc c2.content))] := by
  by_cases hc1 : c1.time - (List.lookup sid st.lastEditTimes).getD 0 > 500
  · -- the first event edits; the second falls inside its throttle window
    have e1 : statusCallbackStep fmt st nid c1 =
        ({ st with lastEditTimes := mapSet st.lastEditTimes sid c1.time },
         nid, [.edit (some sid) m (fmt (displayTrunc c1.content))]) := by
      simp [statusCallbackStep, h1t, h1s, hm, hc1]
    have e2 : statusCallbackStep fmt
        { st with lastEditTimes := mapSet st.lastEditTimes sid c1.time }
        nid c2 =
        ({ st with lastEditTimes := mapSet st.lastEditTimes sid c1.time },
         nid, []) := by
      have hng : ¬(c2.time - c1.time > 500) := by omega
      simp [statusCallbackStep, h2t, h2s, hm, lookup_mapSet_self, hng]
    right; left
    simp [runAdapter, e1, e2]
  · have e1 : statusCallbackStep fmt st nid c1 = (st, nid, []) := by
      simp [statusCallbackStep, h1t, h1s, hm, hc1]
    by_cases hc2 : c2.time - (List.lookup sid st.lastEditTimes).getD 0 > 500
    · have e2 : statusCallbackStep fmt st nid c2 =
          ({ st with lastEditTimes := mapSet st.lastEditTimes sid c2.time },
           nid, [.edit (some sid) m (fmt (displayTrunc c2.content))]) := by
        simp [statusCallbackStep, h2t, h2s, hm, hc2]
      right; right
      simp [runAdapter, e1, e2]
    · have e2 : statusCallbackStep fmt st nid c2 = (st, nid, []) := by
        simp [statusCallbackStep, h2t, h2s, hm, hc2]
      left
      simp [runAdapter, e1, e2]

/-- C5 witness: a concrete instantiation (second update throttled away;
the single edit carries the triggering update's content). -/
theorem C5_throttle_at_most_one_edit_witness :
    (runAdapter (fun s => s) ⟨[(0, 5)], [], [(0, 100)]⟩ 6
      [⟨"text", "first content here", some 0, 1000⟩,
       ⟨"text", "first content here plus", some 0, 1400⟩]).2.2 = [] ∨
    (runAdapter (fun s => s) ⟨[(0, 5)], [], [(0, 100)]⟩ 6
      [⟨"text", "first content here", some 0, 1000⟩,
       ⟨"text", "first content here plus", some 0, 1400⟩]).2.2 =
      [.edit (some 0) 5 ((fun s => s)
        (displayTrunc "first content here"))] ∨
    (runAdapter (fun s => s) ⟨[(0, 5)], [], [(0, 100)]⟩ 6
      [⟨"text", "first content here", some 0, 1000⟩,
       ⟨"text", "first content here plus", some 0, 1400⟩]).2.2 =
      [.edit (some 0) 5 ((fun s => s)
        (displayTrunc "first content here plus"))] := by
  exact C5_throttle_at_most_one_edit (fun s => s)
    ⟨[(0, 5)], [], [(0, 100)]⟩ 6 0 5
    ⟨"text", "first content here", some 0, 1000⟩
    ⟨"text", "first content here plus", some 0, 1400⟩
    rfl rfl rfl rfl (by decide) (by decide)

theorem withCalls_nil (out : StepOut) : StepOut.withCalls [] out = out := by
  cases out <;> simp [StepOut.withCalls]

theorem withCalls_append (a b : List StatusCall) (out : StepOut) :
    StepOut.withCalls a (StepOut.withCalls b out) =
      StepOut.withCalls (a ++ b) out := by
  cases out <;> simp [StepOut.withCalls]

theorem processEvents_stopped (cc : String → Bool × String)
    (pa : String → Bool) (ft : String → ToolInput → String)
    (st : EngineState) (es : List SDKEvent) (h : st.stopRequested = true) :
    processEvents cc pa ft st es = .cont st [] := by
  cases es with
  | nil => rfl
  | cons e es => simp [processEvents, h]

theorem processEvents_append (cc : String → Bool × String)
    (pa : String → Bool) (ft : String → ToolInput → String) :
    ∀ (es₁ : List SDKEvent) (st st₁ : EngineState)
      (calls₁ : List StatusCall) (es₂ : List SDKEvent),
      processEvents cc pa ft st es₁ = .cont st₁ calls₁ →
      processEvents cc pa ft st (es₁ ++ es₂) =
        StepOut.withCalls calls₁ (processEvents cc pa ft st₁ es₂) := by
  intro es₁
  induction es₁ with
  | nil =>
    intro st st₁ calls₁ es₂ h
    simp only [processEvents] at h
    cases h
    rw [List.nil_append, withCalls_nil]
  | cons e es ih =>
    intro st st₁ calls₁ es₂ h
    by_cases hstop : st.stopRequested = true
    · rw [processEvents_stopped cc pa ft st (e :: es) hstop] at h
      cases h
      rw [processEvents_stopped cc pa ft st ((e :: es) ++ es₂) hstop,
        processEvents_stopped cc pa ft st es₂ hstop]
      rfl
    · have hstop' : st.stopRequested = false := by
        cases hs : st.stopRequested
        · rfl
        · exact absurd hs hstop
      simp only [List.cons_append, processEvents, hstop'] at h ⊢
      rw [if_neg (by simp)] at h ⊢
      cases e with
      | assistant sid blocks =>
        dsimp only at h ⊢
        cases hb : processBlocks cc pa ft
            (captureSessionId st (.assistant sid blocks)) blocks with
        | thrown stx cx ex =>
          rw [hb] at h
          simp at h
        | cont stx cx =>
          rw [hb] at h
          dsimp only at h ⊢
          cases hrest : processEvents cc pa ft stx es with
          | thrown sty cy ey =>
            rw [hrest] at h
            simp [StepOut.withCalls] at h
          | cont sty cy =>
            rw [hrest] at h
            simp only [StepOut.withCalls, StepOut.cont.injEq] at h
            obtain ⟨h1, h2⟩ := h
            subst h1 h2
            simp only [List.append_eq]
            rw [ih stx sty cy es₂ hrest, withCalls_append]
      | result sid usage =>
        dsimp only at h ⊢
        exact ih _ st₁ calls₁ es₂ h

/-- C8: the safety check precedes forwarding.  (1) For a `Bash` tool_use
event reached mid-stream, a denied command check emits only the BLOCKED
status (never the normal tool-status update), throws an error carrying
the denial reason, and aborts the run: nothing after the denied event is
processed and the error surfaces as the run's outcome.  (2) When the
check allows the command, the normal tool-status update is forwarded
(after the check).  (3) A file tool whose path is not allowed likewise
throws an error carrying the offending path before any normal tool
status is emitted. -/
theorem C8_safety_check_precedes_forwarding (cc : String → Bool × String)
    (pa : String → Bool) (ft : String → ToolInput → String)
    (sess : SessionCtx) (asid : Option String) :
    (∀ (es₁ : List SDKEvent) (inp : ToolInput) (rest : List Block)
       (es₂ : List SDKEvent) (serr : Option String) (st₁ : EngineState)
       (calls₁ : List StatusCall) (r : String),
       processEvents cc pa ft (initEngine sess) es₁ = .cont st₁ calls₁ →
       st₁.queryCompleted = false →
       cc inp.command = (false, r) →
       (runSession cc pa ft sess
          (es₁ ++ (SDKEvent.assistant asid (.toolUse "Bash" inp :: rest)) ::
            es₂) serr).calls =
         calls₁ ++ [⟨"tool", "BLOCKED: " ++ r, none, 0⟩] ∧
       (runSession cc pa ft sess
          (es₁ ++ (SDKEvent.assistant asid (.toolUse "Bash" inp :: rest)) ::
            es₂) serr).outcome =
         .error ("Unsafe command blocked: " ++ r)) ∧
    (∀ (st : EngineState) (inp : ToolInput),
       (cc inp.command).1 = true → st.currentSegmentText = "" →
       processBlock cc pa ft st (.toolUse "Bash" inp) =
         .cont { st with currentTool := some (ft "Bash" inp),
                         lastTool := some (ft "Bash" inp) }
           [⟨"tool", ft "Bash" inp, none, 0⟩]) ∧
    (∀ (st : EngineState) (inp : ToolInput),
       pa inp.filePath = false → inp.filePath ≠ "" →
       processBlock cc pa ft st (.toolUse "Write" inp) =
         .thrown st [⟨"tool", "Access denied: " ++ inp.filePath, none, 0⟩]
           ("File access blocked: " ++ inp.filePath)) := by
  refine ⟨?_, ?_, ?_⟩
  · intro es₁ inp rest es₂ serr st₁ calls₁ r h1 h2 hd
    have hstop₁ : st₁.stopRequested = false :=
      (processEvents_cont_inv cc pa ft es₁ _ st₁ calls₁ rfl h1).2
    have hcap := captureSessionId_inv st₁
      (.assistant asid (.toolUse "Bash" inp :: rest))
    have hblock : processBlocks cc pa ft
        (captureSessionId st₁ (.assistant asid (.toolUse "Bash" inp :: rest)))
        (.toolUse "Bash" inp :: rest) =
        .thrown (captureSessionId st₁
            (.assistant asid (.toolUse "Bash" inp :: rest)))
          [⟨"tool", "BLOCKED: " ++ r, none, 0⟩]
          ("Unsafe command blocked: " ++ r) := by
      have hb : processBlock cc pa ft
          (captureSessionId st₁
            (.assistant asid (.toolUse "Bash" inp :: rest)))
          (.toolUse "Bash" inp) =
          .thrown (captureSessionId st₁
              (.assistant asid (.toolUse "Bash" inp :: rest)))
            [⟨"tool", "BLOCKED: " ++ r, none, 0⟩]
            ("Unsafe command blocked: " ++ r) := by
        simp [processBlock, hd]
      simp only [processBlocks, hb]
    have hevents : processEvents cc pa ft (initEngine sess)
        (es₁ ++ (SDKEvent.assistant asid (.toolUse "Bash" inp :: rest)) ::
          es₂) =
        .thrown (captureSessionId st₁
            (.assistant asid (.toolUse "Bash" inp :: rest)))
          (calls₁ ++ [⟨"tool", "BLOCKED: " ++ r, none, 0⟩])
          ("Unsafe command blocked: " ++ r) := by
      rw [processEvents_append cc pa ft es₁ _ st₁ calls₁ _ h1]
      simp only [processEvents, hstop₁]
      rw [if_neg (by simp)]
      try dsimp only
      rw [hblock]
      rfl
    have hq : (captureSessionId st₁
        (.assistant asid (.toolUse "Bash" inp :: rest))).queryCompleted =
        false := by rw [hcap.2.2, h2]
    have hs : (captureSessionId st₁
        (.assistant asid (.toolUse "Bash" inp :: rest))).stopRequested =
        false := by rw [hcap.2.1, hstop₁]
    constructor
    · simp only [runSession, hevents]
      rw [if_neg (by simp [hq, hs])]
    · simp only [runSession, hevents]
      rw [if_neg (by simp [hq, hs])]
  · intro st inp hsafe hseg
    simp [processBlock, hseg, hsafe]
    decide
  · intro st inp hpa hfp
    simp [processBlock, hpa, hfp]

/-- C8 witness: a concrete denied Bash command ("mkfs" is a blocked
pattern) aborts the run with the reason, after a run prefix of one
thinking event; an allowed command and a blocked Write path instantiate
the other two conjuncts. -/
theorem C8_safety_check_precedes_forwarding_witness :
    ((runSession
        (checkCommandSafety ["mkfs"] (fun _ => true) (fun _ => some []))
        (fun _ => true) (fun n _ => n) ⟨none, false, none, none, none⟩
        ([.assistant none [.thinking "hm"]] ++
          (SDKEvent.assistant none
            [.toolUse "Bash" ⟨"mkfs /dev/sda", ""⟩]) :: []) none).calls =
      [⟨"thinking", "hm", none, 0⟩] ++
        [⟨"tool", "BLOCKED: Blocked pattern: mkfs", none, 0⟩]) ∧
    ((runSession
        (checkCommandSafety ["mkfs"] (fun _ => true) (fun _ => some []))
        (fun _ => true) (fun n _ => n) ⟨none, false, none, none, none⟩
        ([.assistant none [.thinking "hm"]] ++
          (SDKEvent.assistant none
            [.toolUse "Bash" ⟨"mkfs /dev/sda", ""⟩]) :: []) none).outcome =
      .error ("Unsafe command blocked: " ++ "Blocked pattern: mkfs")) := by
  exact (C8_safety_check_precedes_forwarding
    (checkCommandSafety ["mkfs"] (fun _ => true) (fun _ => some []))
    (fun _ => true) (fun n _ => n) ⟨none, false, none, none, none⟩ none).1
    [.assistant none [.thinking "hm"]] ⟨"mkfs /dev/sda", ""⟩ [] [] none
    _ _ "Blocked pattern: mkfs" rfl rfl (by decide)

theorem withCalls_theState (c : List StatusCall) (out : StepOut) :
    (StepOut.withCalls c out).theState = out.theState := by
  cases out <;> rfl

theorem withCalls_theCalls (c : List StatusCall) (out : StepOut) :
    (StepOut.withCalls c out).theCalls = c ++ out.theCalls := by
  cases out <;> rfl

theorem segTracking_entry_congr (st st' : EngineState) (out : StepOut)
    (h1 : st.currentSegmentId = st'.currentSegmentId)
    (h2 : st.currentSegmentText = st'.currentSegmentText) :
    segTracking st' out → segTracking st out := by
  unfold segTracking
  rw [h1, h2]
  exact id

theorem mem_withCalls_left {c : StatusCall} {c₁ : List StatusCall}
    (out : StepOut) (h : c ∈ c₁) :
    c ∈ (StepOut.withCalls c₁ out).theCalls := by
  rw [withCalls_theCalls]
  exact List.mem_append_left _ h

theorem mem_withCalls_right {c : StatusCall} {c₁ : List StatusCall}
    (out : StepOut) (h : c ∈ out.theCalls) :
    c ∈ (StepOut.withCalls c₁ out).theCalls := by
  rw [withCalls_theCalls]
  exact List.mem_append_right _ h

theorem segTracking_comp (st st₁ : EngineState) (c₁ : List StatusCall)
    (out : StepOut) (h₁ : segTracking st (.cont st₁ c₁))
    (h₂ : segTracking st₁ out) :
    segTracking st (out.withCalls c₁) := by
  obtain ⟨m₁, d₁, o₁⟩ := h₁
  obtain ⟨m₂, d₂, o₂⟩ := h₂
  simp only [StepOut.theState, StepOut.theCalls] at m₁ d₁ o₁
  refine ⟨?_, ?_, ?_⟩
  · rw [withCalls_theState]
    exact le_trans m₁ m₂
  · intro c hc ht
    rw [withCalls_theCalls] at hc
    rw [withCalls_theState]
    rcases List.mem_append.mp hc with hc1 | hc2
    · obtain ⟨hlen, k, hk, hdisj⟩ := d₁ c hc1 ht
      refine ⟨hlen, k, hk, ?_⟩
      rcases hdisj with ⟨f, hf, hle⟩ | ⟨hkeq, hle⟩
      · exact Or.inl ⟨f, mem_withCalls_left out hf, hle⟩
      · subst hkeq
        rcases o₂ with ⟨f, hf, hfle⟩ | ⟨heq, hgrow⟩
        · exact Or.inl ⟨f, mem_withCalls_right out hf, le_trans hle hfle⟩
        · exact Or.inr ⟨heq, le_trans hle hgrow⟩
    · obtain ⟨hlen, k, hk, hdisj⟩ := d₂ c hc2 ht
      refine ⟨hlen, k, hk, ?_⟩
      rcases hdisj with ⟨f, hf, hle⟩ | h
      · exact Or.inl ⟨f, mem_withCalls_right out hf, hle⟩
      · exact Or.inr h
  · rcases o₁ with ⟨f, hf, hle⟩ | ⟨heq, hgrow⟩
    · exact Or.inl ⟨f, mem_withCalls_left out hf, hle⟩
    · rw [heq]
      rcases o₂ with ⟨f, hf, hfle⟩ | ⟨heq₂, hgrow₂⟩
      · exact Or.inl ⟨f, mem_withCalls_right out hf, le_trans hgrow hfle⟩
      · rw [withCalls_theState]
        exact Or.inr ⟨heq₂, le_trans hgrow hgrow₂⟩

theorem segTracking_refl (st : EngineState) (calls : List StatusCall)
    (hnotext : ∀ c ∈ calls, c.stype ≠ "text") :
    segTracking st (.cont st calls) := by
  refine ⟨le_refl _, ?_, Or.inr ⟨rfl, le_refl _⟩⟩
  intro c hc ht
  exact absurd ht (hnotext c hc)

theorem segTracking_block (cc : String → Bool × String)
    (pa : String → Bool) (ft : String → ToolInput → String)
    (st : EngineState) (b : Block) :
    segTracking st (processBlock cc pa ft st b) := by
  cases b with
  | thinking t =>
    simp only [processBlock]
    split
    · refine segTracking_refl st _ ?_
      intro c hc
      simp only [List.mem_singleton] at hc
      subst hc
      simp
    · refine segTracking_refl st _ ?_
      intro c hc
      simp at hc
  | toolUse name input =>
    simp only [processBlock]
    split
    · refine ⟨le_refl _, ?_, Or.inr ⟨rfl, le_refl _⟩⟩
      intro c hc ht
      simp only [StepOut.theCalls, List.mem_singleton] at hc
      subst hc
      simp at ht
    · split
      · refine ⟨le_refl _, ?_, Or.inr ⟨rfl, le_refl _⟩⟩
        intro c hc ht
        simp only [StepOut.theCalls, List.mem_singleton] at hc
        subst hc
        simp at ht
      · split
        · -- normal tool: the tool status is forwarded
          split
          · -- an open segment is closed: id incremented, segment_end emitted
            refine ⟨?_, ?_, ?_⟩
            · dsimp only [StepOut.theState]
              omega
            · intro c hc ht
              dsimp only [StepOut.theCalls] at hc
              rcases List.mem_append.mp hc with hc | hc <;>
                (simp only [List.mem_singleton] at hc; subst hc; simp at ht)
            · refine Or.inl ⟨st.currentSegmentText, ?_, le_refl _⟩
              dsimp only [StepOut.theCalls]
              exact List.mem_append_left _ (List.mem_singleton.mpr rfl)
          · -- no open segment
            refine ⟨le_refl _, ?_, Or.inr ⟨rfl, le_refl _⟩⟩
            intro c hc ht
            dsimp only [StepOut.theCalls] at hc
            rcases List.mem_append.mp hc with hc | hc
            · exact absurd hc (List.not_mem_nil c)
            · simp only [List.mem_singleton] at hc
              subst hc
              simp at ht
        · -- ask_user tool: no tool status forwarded
          split
          · refine ⟨?_, ?_, ?_⟩
            · dsimp only [StepOut.theState]
              omega
            · intro c hc ht
              dsimp only [StepOut.theCalls] at hc
              simp only [List.mem_singleton] at hc
              subst hc
              simp at ht
            · refine Or.inl ⟨st.currentSegmentText, ?_, le_refl _⟩
              dsimp only [StepOut.theCalls]
              exact List.mem_singleton.mpr rfl
          · refine ⟨le_refl _, ?_, Or.inr ⟨rfl, le_refl _⟩⟩
            intro c hc ht
            dsimp only [StepOut.theCalls] at hc
            exact absurd hc (List.not_mem_nil c)
  | text t now =>
    simp only [processBlock]
    split
    · rename_i hgate
      refine ⟨le_refl _, ?_, Or.inr ⟨rfl, ?_⟩⟩
      · intro c hc ht
        dsimp only [StepOut.theCalls] at hc
        simp only [List.mem_singleton] at hc
        subst hc
        exact ⟨hgate.2, st.currentSegmentId, rfl, Or.inr ⟨rfl, le_refl _⟩⟩
      · dsimp only [StepOut.theState]
        simp
    · refine ⟨le_refl _, ?_, Or.inr ⟨rfl, ?_⟩⟩
      · intro c hc ht
        dsimp only [StepOut.theCalls] at hc
        simp at hc
      · dsimp only [StepOut.theState]
        simp

theorem segTracking_blocks (cc : String → Bool × String)
    (pa : String → Bool) (ft : String → ToolInput → String) :
    ∀ (bs : List Block) (st : EngineState),
      segTracking st (processBlocks cc pa ft st bs) := by
  intro bs
  induction bs with
  | nil =>
    intro st
    exact segTracking_refl st [] (by intro c hc; simp at hc)
  | cons b bs ih =>
    intro st
    simp only [processBlocks]
    cases hb : processBlock cc pa ft st b with
    | thrown st₁ c₁ e =>
      have := segTracking_block cc pa ft st b
      rw [hb] at this
      exact this
    | cont st₁ c₁ =>
      have hstep := segTracking_block cc pa ft st b
      rw [hb] at hstep
      exact segTracking_comp st st₁ c₁ _ hstep (ih st₁)

theorem captureSessionId_seg (st : EngineState) (e : SDKEvent) :
    (captureSessionId st e).currentSegmentId = st.currentSegmentId ∧
    (captureSessionId st e).currentSegmentText = st.currentSegmentText := by
  cases e <;> simp only [captureSessionId] <;> split <;> simp

theorem segTracking_events (cc : String → Bool × String)
    (pa : String → Bool) (ft : String → ToolInput → String) :
    ∀ (es : List SDKEvent) (st : EngineState),
      segTracking st (processEvents cc pa ft st es) := by
  intro es
  induction es with
  | nil =>
    intro st
    exact segTracking_refl st [] (by intro c hc; simp at hc)
  | cons e es ih =>
    intro st
    simp only [processEvents]
    split
    · exact segTracking_refl st [] (by intro c hc; simp at hc)
    · obtain ⟨hcid, hctx⟩ := captureSessionId_seg st e
      cases e with
      | assistant sid blocks =>
        dsimp only
        cases hb : processBlocks cc pa ft
            (captureSessionId st (.assistant sid blocks)) blocks with
        | thrown st₁ c₁ err =>
          have := segTracking_blocks cc pa ft blocks
            (captureSessionId st (.assistant sid blocks))
          rw [hb] at this
          exact segTracking_entry_congr st _ _ hcid.symm hctx.symm this
        | cont st₁ c₁ =>
          have hstep := segTracking_blocks cc pa ft blocks
            (captureSessionId st (.assistant sid blocks))
          rw [hb] at hstep
          have hstep' : segTracking st (.cont st₁ c₁) :=
            segTracking_entry_congr st _ _ hcid.symm hctx.symm hstep
          exact segTracking_comp st st₁ c₁ _ hstep' (ih st₁)
      | result sid usage =>
        dsimp only
        refine segTracking_entry_congr st _ _ ?_ ?_ (ih _)
        · exact hcid.symm
        · exact hctx.symm

theorem strJoin_append_singleton (l : List String) (t : String) :
    String.join (l ++ [t]) = String.join l ++ t := by
  simp [String.join, List.foldl_append]

theorem textTracking_entry_congr (st st' : EngineState) (out : StepOut)
    (h1 : st.responseParts = st'.responseParts)
    (h2 : st.currentSegmentText = st'.currentSegmentText) :
    textTracking st' out → textTracking st out := by
  unfold textTracking
  rw [h1, h2]
  exact id

theorem textTracking_comp (st st₁ : EngineState) (c₁ : List StatusCall)
    (out : StepOut) (h₁ : textTracking st (.cont st₁ c₁))
    (h₂ : textTracking st₁ out) :
    textTracking st (out.withCalls c₁) := by
  obtain ⟨⟨s₁, hs₁⟩, hcond₁⟩ := h₁
  obtain ⟨⟨s₂, hs₂⟩, hcond₂⟩ := h₂
  simp only [StepOut.theState, StepOut.theCalls] at hs₁ hcond₁
  refine ⟨⟨s₁ ++ s₂, ?_⟩, ?_⟩
  · rw [withCalls_theState, hs₂, hs₁, String.append_assoc]
  · intro hpre
    obtain ⟨hpre₁, hinf₁⟩ := hcond₁ hpre
    obtain ⟨hpre₂, hinf₂⟩ := hcond₂ hpre₁
    refine ⟨?_, ?_⟩
    · rw [withCalls_theState]
      exact hpre₂
    · intro f k hf
      rw [withCalls_theCalls] at hf
      rw [withCalls_theState]
      rcases List.mem_append.mp hf with hf | hf
      · have h := hinf₁ f k hf
        rw [hs₂, String.data_append]
        exact h.trans (List.prefix_append _ _).isInfix
      · exact hinf₂ f k hf

theorem textTracking_still (st : EngineState) (calls : List StatusCall)
    (hnoseg : ∀ c ∈ calls, c.stype ≠ "segment_end") :
    textTracking st (.cont st calls) := by
  refine ⟨⟨"", by simp [StepOut.theState]⟩, ?_⟩
  intro hpre
  refine ⟨hpre, ?_⟩
  intro f k hf
  exact absurd rfl (hnoseg _ hf)

theorem textTracking_block (cc : String → Bool × String)
    (pa : String → Bool) (ft : String → ToolInput → String)
    (st : EngineState) (b : Block) :
    textTracking st (processBlock cc pa ft st b) := by
  cases b with
  | thinking t =>
    simp only [processBlock]
    split
    · refine textTracking_still st _ ?_
      intro c hc
      simp only [List.mem_singleton] at hc
      subst hc
      simp
    · exact textTracking_still st _ (by intro c hc; simp at hc)
  | toolUse name input =>
    simp only [processBlock]
    split
    · refine ⟨⟨"", by simp [StepOut.theState]⟩, ?_⟩
      intro hpre
      refine ⟨hpre, ?_⟩
      intro f k hf
      simp only [StepOut.theCalls, List.mem_singleton] at hf
      simp at hf
    · split
      · refine ⟨⟨"", by simp [StepOut.theState]⟩, ?_⟩
        intro hpre
        refine ⟨hpre, ?_⟩
        intro f k hf
        simp only [StepOut.theCalls, List.mem_singleton] at hf
        simp at hf
      · split
        · -- normal tool, with or without an open segment
          split
          · refine ⟨⟨"", by simp [StepOut.theState]⟩, ?_⟩
            rintro ⟨pre, hp⟩
            refine ⟨⟨String.join st.responseParts, by
              simp [StepOut.theState]⟩, ?_⟩
            intro f k hf
            dsimp only [StepOut.theCalls, StepOut.theState] at hf ⊢
            rcases List.mem_append.mp hf with hf | hf
            · simp only [List.mem_singleton, StatusCall.mk.injEq] at hf
              obtain ⟨-, hfc, -, -⟩ := hf
              subst hfc
              refine ⟨pre.data, [], ?_⟩
              rw [List.append_nil, ← String.data_append, ← hp]
            · simp only [List.mem_singleton] at hf
              simp at hf
          · refine ⟨⟨"", by simp [StepOut.theState]⟩, ?_⟩
            rintro ⟨pre, hp⟩
            refine ⟨⟨pre, hp⟩, ?_⟩
            intro f k hf
            dsimp only [StepOut.theCalls] at hf
            rcases List.mem_append.mp hf with hf | hf
            · exact absurd hf (List.not_mem_nil _)
            · simp only [List.mem_singleton] at hf
              simp at hf
        · -- ask_user tool
          split
          · refine ⟨⟨"", by simp [StepOut.theState]⟩, ?_⟩
            rintro ⟨pre, hp⟩
            refine ⟨⟨String.join st.responseParts, by
              simp [StepOut.theState]⟩, ?_⟩
            intro f k hf
            dsimp only [StepOut.theCalls, StepOut.theState] at hf ⊢
            simp only [List.mem_singleton, StatusCall.mk.injEq] at hf
            obtain ⟨-, hfc, -, -⟩ := hf
            subst hfc
            refine ⟨pre.data, [], ?_⟩
            rw [List.append_nil, ← String.data_append, ← hp]
          · refine ⟨⟨"", by simp [StepOut.theState]⟩, ?_⟩
            rintro ⟨pre, hp⟩
            refine ⟨⟨pre, hp⟩, ?_⟩
            intro f k hf
            dsimp only [StepOut.theCalls] at hf
            exact absurd hf (List.not_mem_nil _)
  | text t now =>
    simp only [processBlock]
    split <;>
    · refine ⟨⟨t, by simp [StepOut.theState, strJoin_append_singleton]⟩, ?_⟩
      rintro ⟨pre, hp⟩
      refine ⟨⟨pre, by
        simp only [StepOut.theState]
        rw [strJoin_append_singleton, hp, String.append_assoc]⟩, ?_⟩
      intro f k hf
      dsimp only [StepOut.theCalls] at hf
      first
        | (simp only [List.mem_singleton] at hf; simp at hf)
        | exact absurd hf (List.not_mem_nil _)

theorem textTracking_blocks (cc : String → Bool × String)
    (pa : String → Bool) (ft : String → ToolInput → String) :
    ∀ (bs : List Block) (st : EngineState),
      textTracking st (processBlocks cc pa ft st bs) := by
  intro bs
  induction bs with
  | nil =>
    intro st
    exact textTracking_still st [] (by intro c hc; simp at hc)
  | cons b bs ih =>
    intro st
    simp only [processBlocks]
    cases hb : processBlock cc pa ft st b with
    | thrown st₁ c₁ e =>
      have := textTracking_block cc pa ft st b
      rw [hb] at this
      exact this
    | cont st₁ c₁ =>
      have hstep := textTracking_block cc pa ft st b
      rw [hb] at hstep
      exact textTracking_comp st st₁ c₁ _ hstep (ih st₁)

theorem textTracking_events (cc : String → Bool × String)
    (pa : String → Bool) (ft : String → ToolInput → String) :
    ∀ (es : List SDKEvent) (st : EngineState),
      textTracking st (processEvents cc pa ft st es) := by
  intro es
  induction es with
  | nil =>
    intro st
    exact textTracking_still st [] (by intro c hc; simp at hc)
  | cons e es ih =>
    intro st
    simp only [processEvents]
    split
    · exact textTracking_still st [] (by intro c hc; simp at hc)
    · have hcap := captureSessionId_inv st e
      have hseg := captureSessionId_seg st e
      cases e with
      | assistant sid blocks =>
        dsimp only
        cases hb : processBlocks cc pa ft
            (captureSessionId st (.assistant sid blocks)) blocks with
        | thrown st₁ c₁ err =>
          have := textTracking_blocks cc pa ft blocks
            (captureSessionId st (.assistant sid blocks))
          rw [hb] at this
          exact textTracking_entry_congr st _ _ hcap.1.symm hseg.2.symm this
        | cont st₁ c₁ =>
          have hstep := textTracking_blocks cc pa ft blocks
            (captureSessionId st (.assistant sid blocks))
          rw [hb] at hstep
          have hstep' : textTracking st (.cont st₁ c₁) :=
            textTracking_entry_congr st _ _ hcap.1.symm hseg.2.symm hstep
          exact textTracking_comp st st₁ c₁ _ hstep' (ih st₁)
      | result sid usage =>
        dsimp only
        exact textTracking_entry_congr st _ _ hcap.1.symm hseg.2.symm (ih _)

theorem lookup_map_overwrite_other (k k' v : Nat) (h : k ≠ k') :
    ∀ m : List (Nat × Nat),
      List.lookup k (m.map (fun p => if p.1 = k' then (k', v) else p)) =
        List.lookup k m := by
  intro m
  induction m with
  | nil => simp
  | cons p m ih =>
    rcases p with ⟨a, b⟩
    by_cases hp : a = k'
    · subst hp
      rw [List.map_cons, if_pos rfl, List.lookup_cons, List.lookup_cons,
        show (k == a) = false by simp [h]]
      exact ih
    · rw [List.map_cons, if_neg (by simpa using hp), List.lookup_cons,
        List.lookup_cons]
      cases hka : (k == a) with
      | false => exact ih
      | true => rfl

theorem lookup_mapSet_other (m : List (Nat × Nat)) (k k' v : Nat)
    (h : k ≠ k') : List.lookup k (mapSet m k' v) = List.lookup k m := by
  by_cases hs : (List.lookup k' m).isSome = true
  · simp only [mapSet, hs, if_true]
    exact lookup_map_overwrite_other k k' v h m
  · simp only [mapSet, hs, Bool.false_eq_true, if_false]
    rw [List.lookup_append]
    have hone : List.lookup k [(k', v)] = none := by
      rw [List.lookup_cons, show (k == k') = false by simp [h]]
      rfl
    rw [hone, Option.or_none]

theorem statusCallbackStep_segment_closed (fmt : String → String)
    (st : StreamingStateM) (nid : Nat) (c : StatusCall) (i : Nat)
    (hc : c.stype = "text" → c.segId ≠ some i)
    (hli : List.lookup i st.textMessages = none) :
    List.lookup i (statusCallbackStep fmt st nid c).1.textMessages = none ∧
    ∀ a ∈ (statusCallbackStep fmt st nid c).2.2, a.segOf ≠ some i := by
  unfold statusCallbackStep
  split
  · refine ⟨hli, ?_⟩
    intro a ha
    simp only [List.mem_singleton] at ha
    subst ha
    simp [TgAction.segOf]
  · split
    · refine ⟨hli, ?_⟩
      intro a ha
      simp only [List.mem_singleton] at ha
      subst ha
      simp [TgAction.segOf]
    · split
      · -- "text"
        rename_i htext
        split
        · exact ⟨hli, by intro a ha; simp at ha⟩
        · rename_i sid hsid
          have hne : sid ≠ i := by
            intro heq
            exact (hc htext) (by rw [hsid, heq])
          dsimp only
          split
          · -- create
            refine ⟨?_, ?_⟩
            · simp only
              rw [lookup_mapSet_other st.textMessages i sid nid
                (Ne.symm hne)]
              exact hli
            · intro a ha
              simp only [List.mem_singleton] at ha
              subst ha
              simp only [TgAction.segOf]
              intro heq
              injection heq with heq
              exact hne heq
          · split
            · refine ⟨hli, ?_⟩
              intro a ha
              simp only [List.mem_singleton] at ha
              subst ha
              simp only [TgAction.segOf]
              intro heq
              injection heq with heq
              exact hne heq
            · exact ⟨hli, by intro a ha; simp at ha⟩
      · split
        · -- "segment_end"
          split
          · exact ⟨hli, by intro a ha; simp at ha⟩
          · rename_i sid hsid
            cases hlk : List.lookup sid st.textMessages with
            | none =>
              exact ⟨hli, by intro a ha; simp at ha⟩
            | some msgId =>
              have hne : sid ≠ i := by
                intro heq
                rw [heq, hli] at hlk
                cases hlk
              dsimp only
              split
              · split
                · refine ⟨hli, ?_⟩
                  intro a ha
                  simp only [List.mem_singleton] at ha
                  subst ha
                  simp only [TgAction.segOf]
                  intro heq
                  injection heq with heq
                  exact hne heq
                · refine ⟨hli, ?_⟩
                  intro a ha
                  simp only [List.mem_cons] at ha
                  rcases ha with ha | ha
                  · subst ha
                    simp [TgAction.segOf]
                  · simp only [List.mem_map] at ha
                    obtain ⟨p, -, hp⟩ := ha
                    subst hp
                    simp only [TgAction.segOf]
                    intro heq
                    injection heq with heq
                    exact hne heq
              · exact ⟨hli, by intro a ha; simp at ha⟩
        · split
          · -- "done"
            refine ⟨hli, ?_⟩
            intro a ha
            simp only [List.mem_map] at ha
            obtain ⟨p, -, hp⟩ := ha
            subst hp
            simp [TgAction.segOf]
          · exact ⟨hli, by intro a ha; simp at ha⟩

theorem adapter_ignores_segment (fmt : String → String) (i : Nat) :
    ∀ (calls : List StatusCall) (st : StreamingStateM) (nid : Nat),
      (∀ c ∈ calls, c.stype = "text" → c.segId ≠ some i) →
      List.lookup i st.textMessages = none →
      List.lookup i (runAdapter fmt st nid calls).1.textMessages = none ∧
      ∀ a ∈ (runAdapter fmt st nid calls).2.2, a.segOf ≠ some i := by
  intro calls
  induction calls with
  | nil =>
    intro st nid _ hli
    exact ⟨hli, by intro a ha; simp [runAdapter] at ha⟩
  | cons c cs ih =>
    intro st nid hcalls hli
    obtain ⟨h1, h2⟩ := statusCallbackStep_segment_closed fmt st nid c i
      (hcalls c (List.mem_cons_self c cs)) hli
    simp only [runAdapter]
    cases hstep : statusCallbackStep fmt st nid c with
    | mk st' rest =>
      rcases rest with ⟨nid', acts⟩
      rw [hstep] at h1 h2
      simp only at h1 h2
      obtain ⟨h3, h4⟩ := ih st' nid'
        (by intro c' hc'; exact hcalls c' (List.mem_cons_of_mem c hc')) h1
      cases hrest : runAdapter fmt st' nid' cs with
      | mk st'' rest2 =>
        rcases rest2 with ⟨nid'', acts2⟩
        rw [hrest] at h3 h4
        simp only at h3 h4
        refine ⟨h3, ?_⟩
        intro a ha
        simp only at ha
        rcases List.mem_append.mp ha with ha | ha
        · exact h2 a ha
        · exact h4 a ha

theorem runSession_ok_shape (cc : String → Bool × String)
    (pa : String → Bool) (ft : String → ToolInput → String)
    (sess : SessionCtx) (es : List SDKEvent) (serr : Option String)
    (r : String)
    (hok : (runSession cc pa ft sess es serr).outcome = .ok r) :
    (runSession cc pa ft sess es serr).calls =
      (processEvents cc pa ft (initEngine sess) es).theCalls ++
        ((if (processEvents cc pa ft (initEngine sess)
              es).theState.currentSegmentText ≠ "" then
            [StatusCall.mk "segment_end"
              (processEvents cc pa ft (initEngine sess)
                es).theState.currentSegmentText
              (some (processEvents cc pa ft (initEngine sess)
                es).theState.currentSegmentId) 0]
          else []) ++ [StatusCall.mk "done" "" none 0]) ∧
    r = (if String.join (processEvents cc pa ft (initEngine sess)
          es).theState.responseParts = "" then "No response from Claude."
        else String.join (processEvents cc pa ft (initEngine sess)
          es).theState.responseParts) := by
  simp only [runSession] at hok ⊢
  generalize processEvents cc pa ft (initEngine sess) es = out at hok ⊢
  cases out with
  | cont st calls =>
    cases serr with
    | none =>
      dsimp only [StepOut.theCalls, StepOut.theState] at hok ⊢
      exact ⟨rfl, ((Except.ok.injEq _ _).mp hok).symm⟩
    | some e =>
      dsimp only [StepOut.theCalls, StepOut.theState] at hok ⊢
      split at hok
      · rename_i hcond
        rw [if_pos hcond]
        exact ⟨rfl, ((Except.ok.injEq _ _).mp hok).symm⟩
      · simp at hok
  | thrown st calls e =>
    dsimp only [StepOut.theCalls, StepOut.theState] at hok ⊢
    split at hok
    · rename_i hcond
      rw [if_pos hcond]
      exact ⟨rfl, ((Except.ok.injEq _ _).mp hok).symm⟩
    · simp at hok

/-- C10: short or slow segments are never rendered.  For a successful
`sendMessageStreaming` run, if every `segment_end` status update for
segment `i` carries at most 20 characters (i.e. the segment's accumulated
text never exceeded the 20-character gate of src/session.ts line 256),
then no `text` status update is ever issued for segment `i`; running the
Telegram adapter of part_004 from a fresh state over the run's status
calls creates no message entry for segment `i` and performs no
create/edit action tagged with segment `i`; and every `segment_end`
content for segment `i` occurs inside the string the run returns. -/
theorem C10_short_segments_never_rendered (cc : String → Bool × String)
    (pa : String → Bool) (ft : String → ToolInput → String)
    (fmt : String → String) (sess : SessionCtx) (es : List SDKEvent)
    (serr : Option String) (nid i : Nat) (r : String)
    (hok : (runSession cc pa ft sess es serr).outcome = .ok r)
    (hshort : ∀ f : String,
      StatusCall.mk "segment_end" f (some i) 0 ∈
        (runSession cc pa ft sess es serr).calls → f.length ≤ 20) :
    (∀ c ∈ (runSession cc pa ft sess es serr).calls,
        c.stype = "text" → c.segId ≠ some i) ∧
    List.lookup i (runAdapter fmt StreamingStateM.empty nid
      (runSession cc pa ft sess es serr).calls).1.textMessages = none ∧
    (∀ a ∈ (runAdapter fmt StreamingStateM.empty nid
        (runSession cc pa ft sess es serr).calls).2.2,
      TgAction.segOf a ≠ some i) ∧
    (∀ f : String, StatusCall.mk "segment_end" f (some i) 0 ∈
        (runSession cc pa ft sess es serr).calls →
      f.data <:+: r.data) := by
  obtain ⟨hcalls, hr⟩ := runSession_ok_shape cc pa ft sess es serr r hok
  have hseg := segTracking_events cc pa ft es (initEngine sess)
  have htxt := textTracking_events cc pa ft es (initEngine sess)
  generalize hO : processEvents cc pa ft (initEngine sess) es = O
    at hcalls hr hseg htxt
  obtain ⟨hmono, hdom, hopen⟩ := hseg
  have part1 : ∀ c ∈ (runSession cc pa ft sess es serr).calls,
      c.stype = "text" → c.segId ≠ some i := by
    intro c hc ht hi
    rw [hcalls] at hc
    rcases List.mem_append.mp hc with hc | hc
    · obtain ⟨hlen, k, hk, hdisj⟩ := hdom c hc ht
      rw [hi] at hk
      injection hk with hk
      rcases hdisj with ⟨f, hf, hle⟩ | ⟨hkeq, hle⟩
      · rw [← hk] at hf
        have hfm : StatusCall.mk "segment_end" f (some i) 0 ∈
            (runSession cc pa ft sess es serr).calls := by
          rw [hcalls]; exact List.mem_append_left _ hf
        have := hshort f hfm
        omega
      · have hne : O.theState.currentSegmentText ≠ "" := by
          intro h0
          rw [h0] at hle
          have hz : c.content.length ≤ 0 := by simpa using hle
          omega
        have hieq : i = O.theState.currentSegmentId := hk.trans hkeq
        have hfm : StatusCall.mk "segment_end" O.theState.currentSegmentText
            (some O.theState.currentSegmentId) 0 ∈
            (runSession cc pa ft sess es serr).calls := by
          rw [hcalls]
          refine List.mem_append_right _ (List.mem_append_left _ ?_)
          rw [if_pos hne]
          exact List.mem_cons_self _ _
        rw [← hieq] at hfm
        have := hshort O.theState.currentSegmentText hfm
        omega
    · rcases List.mem_append.mp hc with hc | hc
      · revert hc
        split
        · intro hc
          simp only [List.mem_singleton] at hc
          subst hc
          simp at ht
        · intro hc
          simp at hc
      · simp only [List.mem_singleton] at hc
        subst hc
        simp at ht
  obtain ⟨had1, had2⟩ := adapter_ignores_segment fmt i
    (runSession cc pa ft sess es serr).calls StreamingStateM.empty nid
    part1 rfl
  refine ⟨part1, had1, had2, ?_⟩
  intro f hf
  obtain ⟨hgrow, hcond⟩ := htxt
  obtain ⟨hpre, hinf⟩ := hcond ⟨"", rfl⟩
  have hstep : f.data <:+: (String.join O.theState.responseParts).data := by
    rw [hcalls] at hf
    rcases List.mem_append.mp hf with hf | hf
    · exact hinf f i hf
    · rcases List.mem_append.mp hf with hf | hf
      · revert hf
        split
        · intro hf
          simp only [List.mem_singleton] at hf
          injection hf with h1 h2 h3 h4
          obtain ⟨pre, hpreq⟩ := hpre
          rw [h2, hpreq]
          exact ⟨pre.data, [], by simp [String.data_append]⟩
        · intro hf
          simp at hf
      · simp at hf
  by_cases hj : String.join O.theState.responseParts = ""
  · have hnil : f.data = [] := by
      rw [hj] at hstep
      exact List.eq_nil_of_sublist_nil hstep.sublist
    rw [hnil]
    exact ⟨[], r.data, by simp⟩
  · rw [hr, if_neg hj]
    exact hstep
theorem C10_short_segments_never_rendered_witness :
    (∀ c ∈ (runSession (fun _ => (true, "")) (fun _ => true)
        (fun _ _ => "t") ⟨none, false, none, none, none⟩
        [SDKEvent.assistant none [Block.text "hi" 1000]] none).calls,
        c.stype = "text" → c.segId ≠ some 0) ∧
    List.lookup 0 (runAdapter (fun s => s) StreamingStateM.empty 0
      (runSession (fun _ => (true, "")) (fun _ => true)
        (fun _ _ => "t") ⟨none, false, none, none, none⟩
        [SDKEvent.assistant none [Block.text "hi" 1000]] none).calls
      ).1.textMessages = none ∧
    (∀ a ∈ (runAdapter (fun s => s) StreamingStateM.empty 0
        (runSession (fun _ => (true, "")) (fun _ => true)
          (fun _ _ => "t") ⟨none, false, none, none, none⟩
          [SDKEvent.assistant none [Block.text "hi" 1000]] none).calls
        ).2.2,
      TgAction.segOf a ≠ some 0) ∧
    (∀ f : String, StatusCall.mk "segment_end" f (some 0) 0 ∈
        (runSession (fun _ => (true, "")) (fun _ => true)
          (fun _ _ => "t") ⟨none, false, none, none, none⟩
          [SDKEvent.assistant none [Block.text "hi" 1000]] none).calls →
      f.data <:+: ("hi" : String).data) :=
  C10_short_segments_never_rendered (fun _ => (true, "")) (fun _ => true)
    (fun _ _ => "t") (fun s => s) ⟨none, false, none, none, none⟩
    [SDKEvent.assistant none [Block.text "hi" 1000]] none 0 0 "hi"
    (by decide)
    (by
      intro f hf
      have hc : (runSession (fun _ => (true, "")) (fun _ => true)
          (fun _ _ => "t") ⟨none, false, none, none, none⟩
          [SDKEvent.assistant none [Block.text "hi" 1000]] none).calls =
          [StatusCall.mk "segment_end" "hi" (some 0) 0,
           StatusCall.mk "done" "" none 0] := by decide
      rw [hc] at hf
      simp at hf
      rw [hf]
      decide)

/-- Counterexample to C6 as stated: on the claim's own event sequence
textDelta("a"), toolInvocation, textDelta("b"), the run succeeds and the
segments get the texts "a" and "b", but neither segment is rendered as a
chat message: no `text` status update is ever issued (both accumulated
texts stay at or below the 20-character gate of src/session.ts line 256),
and the adapter performs no action tagged with any segment id — the two
segments are not "rendered as distinct messages", they are not rendered
at all. -/
theorem C6_counterexample :
    (runSession (fun _ => (true, "")) (fun _ => true) (fun _ _ => "t")
        ⟨none, false, none, none, none⟩
        [SDKEvent.assistant none
          [Block.text "a" 1000, Block.toolUse "Grep" ⟨"", ""⟩,
           Block.text "b" 1001]] none).outcome = .ok "ab" ∧
    (∀ c ∈ (runSession (fun _ => (true, "")) (fun _ => true) (fun _ _ => "t")
        ⟨none, false, none, none, none⟩
        [SDKEvent.assistant none
          [Block.text "a" 1000, Block.toolUse "Grep" ⟨"", ""⟩,
           Block.text "b" 1001]] none).calls, c.stype ≠ "text") ∧
    (∀ act ∈ (runAdapter (fun s => s) StreamingStateM.empty 0
        (runSession (fun _ => (true, "")) (fun _ => true) (fun _ _ => "t")
          ⟨none, false, none, none, none⟩
          [SDKEvent.assistant none
            [Block.text "a" 1000, Block.toolUse "Grep" ⟨"", ""⟩,
             Block.text "b" 1001]] none).calls).2.2,
      TgAction.segOf act = none) := by
  decide

/-- C6 (amended): on textDelta(a), toolInvocation, textDelta(b) with a
fresh open segment and non-empty `a`, the tool invocation finalizes the
current segment with a `segment_end` carrying the complete accumulated
text `a` under the current segment id, the following text accumulates
under the strictly larger id (current id + 1), and every forwarded text
update carries its own segment's id and exact accumulated content — the
contents are kept apart by segment id.  (Whether each segment is rendered
as a chat message additionally requires the 500ms/20-character streaming
gate to pass; short segments are never rendered, see the C10 analysis.) -/
theorem C6_segment_separation (cc : String → Bool × String)
    (pa : String → Bool) (ft : String → ToolInput → String)
    (st : EngineState) (a b : String) (t1 t2 : Nat) (inp : ToolInput)
    (hfresh : st.currentSegmentText = "") (ha : a ≠ "") :
    ∃ (st' : EngineState) (c₁ c₂ : List StatusCall),
      processBlocks cc pa ft st
          [Block.text a t1, Block.toolUse "Grep" inp, Block.text b t2] =
        .cont st' (c₁ ++
          (StatusCall.mk "segment_end" a (some st.currentSegmentId) 0 ::
           StatusCall.mk "tool" (ft "Grep" inp) none 0 :: c₂)) ∧
      st'.currentSegmentId = st.currentSegmentId + 1 ∧
      st'.currentSegmentText = b ∧
      st'.responseParts = st.responseParts ++ [a, b] ∧
      (∀ c ∈ c₁, c = StatusCall.mk "text" a (some st.currentSegmentId) t1) ∧
      (∀ c ∈ c₂,
        c = StatusCall.mk "text" b (some (st.currentSegmentId + 1)) t2) := by
  obtain ⟨sid, stop, qc, lu, k, segtext, ltu, parts, ctool, ltool⟩ := st
  dsimp only at hfresh ⊢
  subst hfresh
  have hask : jsStartsWith "Grep" "mcp__ask-user" = false := by decide
  by_cases h1 : 500 < t1 - ltu ∧ 20 < a.length
  · by_cases h2 : 500 < t2 - t1 ∧ 20 < b.length
    · refine ⟨⟨sid, stop, qc, lu, k + 1, b, t2, parts ++ [a, b],
          some (ft "Grep" inp), some (ft "Grep" inp)⟩,
        [StatusCall.mk "text" a (some k) t1],
        [StatusCall.mk "text" b (some (k + 1)) t2],
        ?_, rfl, rfl, rfl, ?_, ?_⟩
      · simp [processBlocks, processBlock, StepOut.withCalls, h1.1, h1.2,
          h2.1, h2.2, ha, hask]
      · intro c hc; simpa using hc
      · intro c hc; simpa using hc
    · refine ⟨⟨sid, stop, qc, lu, k + 1, b, t1, parts ++ [a, b],
          some (ft "Grep" inp), some (ft "Grep" inp)⟩,
        [StatusCall.mk "text" a (some k) t1], [],
        ?_, rfl, rfl, rfl, ?_, ?_⟩
      · simp [processBlocks, processBlock, StepOut.withCalls, h1.1, h1.2,
          h2, ha, hask]
      · intro c hc; simpa using hc
      · intro c hc; simp at hc
  · by_cases h2 : 500 < t2 - ltu ∧ 20 < b.length
    · refine ⟨⟨sid, stop, qc, lu, k + 1, b, t2, parts ++ [a, b],
          some (ft "Grep" inp), some (ft "Grep" inp)⟩,
        [], [StatusCall.mk "text" b (some (k + 1)) t2],
        ?_, rfl, rfl, rfl, ?_, ?_⟩
      · simp [processBlocks, processBlock, StepOut.withCalls, h1,
          h2.1, h2.2, ha, hask]
      · intro c hc; simp at hc
      · intro c hc; simpa using hc
    · refine ⟨⟨sid, stop, qc, lu, k + 1, b, ltu, parts ++ [a, b],
          some (ft "Grep" inp), some (ft "Grep" inp)⟩,
        [], [],
        ?_, rfl, rfl, rfl, ?_, ?_⟩
      · simp [processBlocks, processBlock, StepOut.withCalls, h1, h2,
          ha, hask]
      · intro c hc; simp at hc
      · intro c hc; simp at hc

theorem C6_segment_separation_witness :
    ∃ (st' : EngineState) (c₁ c₂ : List StatusCall),
      processBlocks (fun _ => (true, "")) (fun _ => true) (fun _ _ => "t")
          ⟨none, false, false, none, 0, "", 0, [], none, none⟩
          [Block.text "a" 1000, Block.toolUse "Grep" ⟨"", ""⟩,
           Block.text "b" 1001] =
        .cont st' (c₁ ++
          (StatusCall.mk "segment_end" "a" (some 0) 0 ::
           StatusCall.mk "tool" "t" none 0 :: c₂)) ∧
      st'.currentSegmentId = 0 + 1 ∧
      st'.currentSegmentText = "b" ∧
      st'.responseParts = [] ++ ["a", "b"] ∧
      (∀ c ∈ c₁, c = StatusCall.mk "text" "a" (some 0) 1000) ∧
      (∀ c ∈ c₂, c = StatusCall.mk "text" "b" (some (0 + 1)) 1001) :=
  C6_segment_separation (fun _ => (true, "")) (fun _ => true)
    (fun _ _ => "t") ⟨none, false, false, none, 0, "", 0, [], none, none⟩
    "a" "b" 1000 1001 ⟨"", ""⟩ rfl (by decide)


theorem handleFinalError_shape (fe : String → String) (iflag : Bool)
    (pre : List HEvent) (s : SessionCtx) (n : Nat) (e : String) :
    ∃ extra : List HEvent,
      (handleFinalError fe iflag pre s n e).trace = pre ++ extra ∧
      (∀ ev ∈ extra, ∀ (k : Nat) (act : TgAction),
        ev ≠ HEvent.attemptAct k act) ∧
      (isCancelErr e = false → isClaudeCodeCrash e = true →
        (handleFinalError fe iflag pre s n e).outcome =
          HandlerOutcome.crashReported ∧
        (handleFinalError fe iflag pre s n e).sess.sessionId = none) := by
  unfold handleFinalError
  by_cases hc : isCancelErr e = true
  · rw [if_pos hc]
    cases iflag with
    | true =>
      rw [if_pos rfl]
      refine ⟨[], by simp, by simp, ?_⟩
      intro h
      rw [h] at hc
      exact absurd hc (by decide)
    | false =>
      rw [if_neg (by decide)]
      refine ⟨[HEvent.handlerReply n "🛑 Query stopped."], by simp, ?_, ?_⟩
      · intro ev hev k act
        simp only [List.mem_singleton] at hev
        subst hev
        simp
      · intro h
        rw [h] at hc
        exact absurd hc (by decide)
  · rw [if_neg hc]
    by_cases hcr : isClaudeCodeCrash e = true
    · rw [if_pos hcr]
      refine ⟨[HEvent.killSession, HEvent.handlerReply n
          "⚠️ Claude Code crashed and the session was reset. Please try again."],
        by simp, ?_, ?_⟩
      · intro ev hev k act
        simp only [List.mem_cons, List.mem_singleton] at hev
        rcases hev with hev | hev | hev
        · subst hev; simp
        · subst hev; simp
        · cases hev
      · intro _ _
        exact ⟨rfl, rfl⟩
    · rw [if_neg hcr]
      refine ⟨[HEvent.handlerReply n ("❌ " ++ fe e)], by simp, ?_, ?_⟩
      · intro ev hev k act
        simp only [List.mem_singleton] at hev
        subst hev
        simp
      · intro _ h
        exact absurd h hcr


theorem attemptAct_not_mem_cleanup (j : Nat) (adp : StreamingStateM)
    (n : Nat) (act : TgAction) :
    HEvent.attemptAct n act ∉ cleanupDeletes j adp := by
  intro h
  unfold cleanupDeletes at h
  obtain ⟨m', _, heq⟩ := List.mem_map.mp h
  cases heq

theorem attemptAct_mem_map (j n : Nat) (acts : List TgAction)
    (act : TgAction)
    (h : HEvent.attemptAct n act ∈ acts.map (HEvent.attemptAct j)) :
    n = j := by
  obtain ⟨a', _, heq⟩ := List.mem_map.mp h
  injection heq with h1 h2
  exact h1.symm

/-- C1 (amended): bounded crash retry with rollback of tracked handles.
When attempt 0 of the retry loop fails with a crash-signature error, the
handler first deletes every message handle tracked by the attempt's
`StreamingState` (the ephemeral tool/thinking messages and the
text-segment messages), then kills the session and notifies the user, and
only then renders the retry attempt; the run restarts exactly once (every
rendered action belongs to attempt 0 or attempt 1); a successful retry
yields the retry's response; a second crash (with a non-cancellation
crash-signature error) is terminal with outcome `crashReported` and a
null backend handle.  (Chunk messages replied by the adapter for an
oversized segment are not tracked in `StreamingState.textMessages` and
are therefore outside this rollback — see the recorded counterexample.) -/
theorem C1_bounded_crash_retry (fmt : String → String)
    (cc : String → Bool × String) (pa : String → Bool)
    (ft : String → ToolInput → String) (fe : String → String)
    (iflag : Bool) (sess : SessionCtx) (nid : Nat) (a0 a1 : HandlerAttempt)
    (r0 r1 : RunResult) (adp0 adp1 : StreamingStateM) (nid0 nid1 : Nat)
    (acts0 acts1 : List TgAction) (e : String)
    (hR0 : runSession cc pa ft sess a0.events a0.streamErr = r0)
    (hA0 : runAdapter fmt StreamingStateM.empty nid r0.calls =
      (adp0, nid0, acts0))
    (he : r0.outcome = .error e)
    (hcrash : isClaudeCodeCrash e = true)
    (hR1 : runSession cc pa ft (sessionKill r0.sess) a1.events a1.streamErr
      = r1)
    (hA1 : runAdapter fmt StreamingStateM.empty (nid0 + 1) r1.calls =
      (adp1, nid1, acts1)) :
    ∃ rest : List HEvent,
      (handleTextRetry fmt cc pa ft fe iflag sess nid a0 a1).trace =
        acts0.map (HEvent.attemptAct 0) ++ cleanupDeletes 0 adp0 ++
        [HEvent.killSession,
         HEvent.handlerReply nid0 "⚠️ Claude crashed, retrying..."] ++
        acts1.map (HEvent.attemptAct 1) ++ rest ∧
      (∀ ev ∈ rest, ∀ (k : Nat) (act : TgAction),
        ev ≠ HEvent.attemptAct k act) ∧
      (∀ (k : Nat) (act : TgAction),
        HEvent.attemptAct k act ∈
          (handleTextRetry fmt cc pa ft fe iflag sess nid a0 a1).trace →
        k = 0 ∨ k = 1) ∧
      (∀ resp : String, r1.outcome = .ok resp →
        (handleTextRetry fmt cc pa ft fe iflag sess nid a0 a1).outcome =
          HandlerOutcome.success resp) ∧
      (∀ e1 : String, r1.outcome = .error e1 → isCancelErr e1 = false →
        isClaudeCodeCrash e1 = true →
        (handleTextRetry fmt cc pa ft fe iflag sess nid a0 a1).outcome =
          HandlerOutcome.crashReported ∧
        (handleTextRetry fmt cc pa ft fe iflag sess nid
          a0 a1).sess.sessionId = none) := by
  simp only [handleTextRetry]
  rw [hR0, hA0]
  dsimp only
  rw [he]
  dsimp only
  rw [if_pos hcrash, hR1, hA1]
  dsimp only
  cases hout : r1.outcome with
  | ok resp =>
    dsimp only
    refine ⟨[], by simp, by simp, ?_, ?_, ?_⟩
    · intro k act hmem
      rcases List.mem_append.mp hmem with h | h
      · rcases List.mem_append.mp h with h | h
        · rcases List.mem_append.mp h with h | h
          · exact Or.inl (attemptAct_mem_map 0 k acts0 act h)
          · exact absurd h (attemptAct_not_mem_cleanup 0 adp0 k act)
        · simp only [List.mem_cons] at h
          rcases h with h | h | h
          · cases h
          · cases h
          · cases h
      · exact Or.inr (attemptAct_mem_map 1 k acts1 act h)
    · intro resp' hresp'
      injection hresp' with hresp'
      subst hresp'
      rfl
    · intro e1 h1
      cases h1
  | error e1 =>
    dsimp only
    obtain ⟨extra, hex1, hex2, hex3⟩ := handleFinalError_shape fe iflag
      (acts0.map (HEvent.attemptAct 0) ++ cleanupDeletes 0 adp0 ++
        [HEvent.killSession,
         HEvent.handlerReply nid0 "⚠️ Claude crashed, retrying..."] ++
        acts1.map (HEvent.attemptAct 1) ++ cleanupDeletes 1 adp1)
      r1.sess nid1 e1
    have hrest : ∀ ev ∈ cleanupDeletes 1 adp1 ++ extra,
        ∀ (k : Nat) (act : TgAction), ev ≠ HEvent.attemptAct k act := by
      intro ev hev k act
      rcases List.mem_append.mp hev with hev | hev
      · intro hcon
        rw [hcon] at hev
        exact attemptAct_not_mem_cleanup 1 adp1 k act hev
      · exact hex2 ev hev k act
    refine ⟨cleanupDeletes 1 adp1 ++ extra, ?_, hrest, ?_, ?_, ?_⟩
    · rw [hex1]
      simp [List.append_assoc]
    · intro k act hmem
      rw [hex1] at hmem
      rcases List.mem_append.mp hmem with h | h
      · rcases List.mem_append.mp h with h | h
        · rcases List.mem_append.mp h with h | h
          · rcases List.mem_append.mp h with h | h
            · rcases List.mem_append.mp h with h | h
              · exact Or.inl (attemptAct_mem_map 0 k acts0 act h)
              · exact absurd h (attemptAct_not_mem_cleanup 0 adp0 k act)
            · simp only [List.mem_cons] at h
              rcases h with h | h | h
              · cases h
              · cases h
              · cases h
          · exact Or.inr (attemptAct_mem_map 1 k acts1 act h)
        · exact absurd h (attemptAct_not_mem_cleanup 1 adp1 k act)
      · exact absurd rfl (hex2 _ h k act)
    · intro resp hresp
      cases hresp
    · intro e1' h1 hnc hcr
      injection h1 with h1
      subst h1
      exact hex3 hnc hcr

theorem C1_bounded_crash_retry_witness :
    ∃ rest : List HEvent,
      (handleTextRetry (fun s => s) (fun _ => (true, "")) (fun _ => true)
        (fun _ _ => "t") (fun s => s) false ⟨none, false, none, none, none⟩
        0 ⟨[], some "exited with code 1"⟩ ⟨[], none⟩).trace =
        ([] : List TgAction).map (HEvent.attemptAct 0) ++
        cleanupDeletes 0 StreamingStateM.empty ++
        [HEvent.killSession,
         HEvent.handlerReply 0 "⚠️ Claude crashed, retrying..."] ++
        ([] : List TgAction).map (HEvent.attemptAct 1) ++ rest ∧
      (∀ ev ∈ rest, ∀ (k : Nat) (act : TgAction),
        ev ≠ HEvent.attemptAct k act) ∧
      (∀ (k : Nat) (act : TgAction),
        HEvent.attemptAct k act ∈
          (handleTextRetry (fun s => s) (fun _ => (true, "")) (fun _ => true)
            (fun _ _ => "t") (fun s => s) false
            ⟨none, false, none, none, none⟩
            0 ⟨[], some "exited with code 1"⟩ ⟨[], none⟩).trace →
        k = 0 ∨ k = 1) ∧
      (∀ resp : String,
        (runSession (fun _ => (true, "")) (fun _ => true) (fun _ _ => "t")
          ⟨none, false, some (jsTake "exited with code 1" 100), none, none⟩
          [] none).outcome = .ok resp →
        (handleTextRetry (fun s => s) (fun _ => (true, "")) (fun _ => true)
          (fun _ _ => "t") (fun s => s) false ⟨none, false, none, none, none⟩
          0 ⟨[], some "exited with code 1"⟩ ⟨[], none⟩).outcome =
          HandlerOutcome.success resp) ∧
      (∀ e1 : String,
        (runSession (fun _ => (true, "")) (fun _ => true) (fun _ _ => "t")
          ⟨none, false, some (jsTake "exited with code 1" 100), none, none⟩
          [] none).outcome = .error e1 → isCancelErr e1 = false →
        isClaudeCodeCrash e1 = true →
        (handleTextRetry (fun s => s) (fun _ => (true, "")) (fun _ => true)
          (fun _ _ => "t") (fun s => s) false ⟨none, false, none, none, none⟩
          0 ⟨[], some "exited with code 1"⟩ ⟨[], none⟩).outcome =
          HandlerOutcome.crashReported ∧
        (handleTextRetry (fun s => s) (fun _ => (true, "")) (fun _ => true)
          (fun _ _ => "t") (fun s => s) false ⟨none, false, none, none, none⟩
          0 ⟨[], some "exited with code 1"⟩
          ⟨[], none⟩).sess.sessionId = none) :=
  C1_bounded_crash_retry (fun s => s) (fun _ => (true, "")) (fun _ => true)
    (fun _ _ => "t") (fun s => s) false ⟨none, false, none, none, none⟩ 0
    ⟨[], some "exited with code 1"⟩ ⟨[], none⟩
    (runSession (fun _ => (true, "")) (fun _ => true) (fun _ _ => "t")
      ⟨none, false, none, none, none⟩ [] (some "exited with code 1"))
    (runSession (fun _ => (true, "")) (fun _ => true) (fun _ _ => "t")
      ⟨none, false, some (jsTake "exited with code 1" 100), none, none⟩
      [] none)
    StreamingStateM.empty StreamingStateM.empty 0 1 [] []
    "exited with code 1" rfl rfl (by decide) (by decide) rfl rfl

theorem bigA_length : bigA.length = 4097 := by
  have h : bigA.length = (List.replicate 4097 'a').length := rfl
  rw [h, List.length_replicate]

theorem jsTake_bigA : jsTake bigA 4000 = chunkA1 := by
  show (⟨(List.replicate 4097 'a').take 4000⟩ : String) =
    (⟨List.replicate 4000 'a'⟩ : String)
  rw [takeReplicate]
  norm_num

theorem displayTrunc_bigA : displayTrunc bigA = chunkA1 ++ "..." := by
  unfold displayTrunc
  rw [if_pos (by rw [bigA_length]; norm_num), jsTake_bigA]

theorem chunkChars_rep97 :
    chunkChars (List.replicate 97 'a') = [List.replicate 97 'a'] := by
  have h2 : List.replicate 97 'a' = 'a' :: List.replicate 96 'a' := by
    rw [← List.replicate_succ]
  rw [h2, chunkChars, ← h2, takeReplicate, dropReplicate]
  norm_num [chunkChars]

theorem chunkChars_bigA :
    chunkChars (List.replicate 4097 'a') =
      [List.replicate 4000 'a', List.replicate 97 'a'] := by
  have h1 : List.replicate 4097 'a' = 'a' :: List.replicate 4096 'a' := by
    rw [← List.replicate_succ]
  rw [h1, chunkChars, ← h1, takeReplicate, dropReplicate]
  norm_num [chunkChars_rep97]

theorem leakBlock1 :
    processBlock cc0 pa0 ft0 ⟨none, false, false, none, 0, "", 0, [], none, none⟩
      (Block.text bigA 1000) =
    .cont ⟨none, false, false, none, 0, bigA, 1000, [bigA], none, none⟩
      [⟨"text", bigA, some 0, 1000⟩] := by
  simp only [processBlock]
  split
  · rfl
  · rename_i hc
    exfalso
    apply hc
    refine ⟨by decide, ?_⟩
    show 20 < bigA.length
    rw [bigA_length]
    norm_num

theorem leakBlock2 :
    processBlock cc0 pa0 ft0
      ⟨none, false, false, none, 0, bigA, 1000, [bigA], none, none⟩
      (Block.toolUse "Grep" ⟨"", ""⟩) =
    .cont ⟨none, false, false, none, 1, "", 1000, [bigA], some "t", some "t"⟩
      [⟨"segment_end", bigA, some 0, 0⟩, ⟨"tool", "t", none, 0⟩] := by
  simp only [processBlock]
  rw [if_neg (by decide)]
  rw [if_neg (by decide)]
  rw [if_pos (by decide)]
  rw [if_pos (by decide)]
  rfl

theorem leakBlocks :
    processBlocks cc0 pa0 ft0
      ⟨none, false, false, none, 0, "", 0, [], none, none⟩
      [Block.text bigA 1000, Block.toolUse "Grep" ⟨"", ""⟩] =
    .cont ⟨none, false, false, none, 1, "", 1000, [bigA], some "t", some "t"⟩
      [⟨"text", bigA, some 0, 1000⟩, ⟨"segment_end", bigA, some 0, 0⟩,
       ⟨"tool", "t", none, 0⟩] := by
  simp only [processBlocks, leakBlock1, leakBlock2, StepOut.withCalls]
  rfl

theorem leakEvents :
    processEvents cc0 pa0 ft0
      ⟨none, false, false, none, 0, "", 0, [], none, none⟩
      [SDKEvent.assistant none
        [Block.text bigA 1000, Block.toolUse "Grep" ⟨"", ""⟩]] =
    .cont ⟨none, false, false, none, 1, "", 1000, [bigA], some "t", some "t"⟩
      [⟨"text", bigA, some 0, 1000⟩, ⟨"segment_end", bigA, some 0, 0⟩,
       ⟨"tool", "t", none, 0⟩] := by
  rw [processEvents]
  rw [if_neg (by decide)]
  dsimp only [captureSessionId]
  rw [leakBlocks]
  dsimp only
  rw [processEvents]
  dsimp only [StepOut.withCalls]
  rfl

theorem leakRun0 :
    runSession cc0 pa0 ft0 sess0
      [SDKEvent.assistant none
        [Block.text bigA 1000, Block.toolUse "Grep" ⟨"", ""⟩]]
      (some crashMsgA) =
    ⟨[⟨"text", bigA, some 0, 1000⟩, ⟨"segment_end", bigA, some 0, 0⟩,
      ⟨"tool", "t", none, 0⟩],
     .error crashMsgA,
     ⟨none, false, some (jsTake crashMsgA 100), none, some "t"⟩,
     ⟨none, false, false, none, 1, "", 1000, [bigA], some "t", some "t"⟩⟩ := by
  simp only [runSession]
  dsimp only [initEngine, sess0]
  rw [leakEvents]
  dsimp only
  rw [if_neg (by decide)]

theorem leakStep1 :
    statusCallbackStep fmt0 StreamingStateM.empty 0
      ⟨"text", bigA, some 0, 1000⟩ =
    (⟨[(0, 0)], [], [(0, 1000)]⟩, 1,
     [.create (some 0) 0 (chunkA1 ++ "...")]) := by
  simp only [statusCallbackStep]
  rw [if_neg (by decide)]
  rw [if_neg (by decide)]
  rw [if_pos (by decide)]
  dsimp only [StreamingStateM.empty]
  rw [show fmt0 (displayTrunc bigA) = chunkA1 ++ "..." from by
    simp only [fmt0]; exact displayTrunc_bigA]
  rfl

theorem leakStep2 :
    statusCallbackStep fmt0 (⟨[(0, 0)], [], [(0, 1000)]⟩ : StreamingStateM) 1
      ⟨"segment_end", bigA, some 0, 0⟩ =
    (⟨[(0, 0)], [], [(0, 1000)]⟩, 3,
     [.delete 0, .create (some 0) 1 chunkA1, .create (some 0) 2 chunkA2]) := by
  simp only [statusCallbackStep]
  rw [if_neg (by decide)]
  rw [if_neg (by decide)]
  rw [if_neg (by decide)]
  rw [if_pos (by decide)]
  rw [show List.lookup 0 [((0 : Nat), (0 : Nat))] = some 0 from rfl]
  dsimp only
  rw [if_pos (by decide)]
  rw [if_neg (show ¬(fmt0 bigA).length ≤ 4096 from by
    simp only [fmt0]; rw [bigA_length]; norm_num)]
  rw [show (fmt0 bigA).data = List.replicate 4097 'a' from rfl]
  rw [chunkChars_bigA]
  rfl

theorem leakStep3 :
    statusCallbackStep fmt0 (⟨[(0, 0)], [], [(0, 1000)]⟩ : StreamingStateM) 3
      ⟨"tool", "t", none, 0⟩ =
    (⟨[(0, 0)], [3], [(0, 1000)]⟩, 4, [.create none 3 "t"]) := by
  simp only [statusCallbackStep]
  rw [if_neg (by decide)]
  rw [if_pos (by decide)]
  rfl

theorem runAdapter_cons (fmt : String → String) (st st1 st2 : StreamingStateM)
    (nid n1 n2 : Nat) (c : StatusCall) (cs : List StatusCall)
    (a1 a2 : List TgAction)
    (h1 : statusCallbackStep fmt st nid c = (st1, n1, a1))
    (h2 : runAdapter fmt st1 n1 cs = (st2, n2, a2)) :
    runAdapter fmt st nid (c :: cs) = (st2, n2, a1 ++ a2) := by
  rw [runAdapter, h1]
  dsimp only
  rw [h2]

theorem leakAdapter0 :
    runAdapter fmt0 StreamingStateM.empty 0
      [⟨"text", bigA, some 0, 1000⟩, ⟨"segment_end", bigA, some 0, 0⟩,
       ⟨"tool", "t", none, 0⟩] =
    (⟨[(0, 0)], [3], [(0, 1000)]⟩, 4,
     [.create (some 0) 0 (chunkA1 ++ "...")] ++
     ([.delete 0, .create (some 0) 1 chunkA1, .create (some 0) 2 chunkA2] ++
      ([.create none 3 "t"] ++ []))) :=
  runAdapter_cons fmt0 _ _ _ _ _ _ _ _ _ _ leakStep1
    (runAdapter_cons fmt0 _ _ _ _ _ _ _ _ _ _ leakStep2
      (runAdapter_cons fmt0 _ _ _ _ _ _ _ _ _ _ leakStep3 (by rw [runAdapter])))

theorem leakRun1 :
    runSession cc0 pa0 ft0
      ⟨none, false, some (jsTake crashMsgA 100), none, some "t"⟩
      [SDKEvent.assistant none [Block.text okT 1000]] none =
    ⟨[⟨"text", okT, some 0, 1000⟩, ⟨"segment_end", okT, some 0, 0⟩,
      ⟨"done", "", none, 0⟩],
     .ok okT,
     ⟨none, false, none, none, some "t"⟩,
     ⟨none, false, false, none, 0, okT, 1000, [okT], none, some "t"⟩⟩ := by
  rfl

theorem leakAdapter1 :
    runAdapter fmt0 StreamingStateM.empty (4 + 1)
      [⟨"text", okT, some 0, 1000⟩, ⟨"segment_end", okT, some 0, 0⟩,
       ⟨"done", "", none, 0⟩] =
    (⟨[(0, 5)], [], [(0, 1000)]⟩, 6,
     [.create (some 0) 5 okT, .edit (some 0) 5 okT]) := by
  rfl

theorem handleTextRetry_crash_ok (fmt : String → String)
    (cc : String → Bool × String) (pa : String → Bool)
    (ft : String → ToolInput → String) (fe : String → String)
    (iflag : Bool) (sess : SessionCtx) (nid : Nat) (a0 a1 : HandlerAttempt)
    (r0 r1 : RunResult) (adp0 adp1 : StreamingStateM) (n0 n1 : Nat)
    (acts0 acts1 : List TgAction) (e resp : String)
    (hR0 : runSession cc pa ft sess a0.events a0.streamErr = r0)
    (hA0 : runAdapter fmt StreamingStateM.empty nid r0.calls =
      (adp0, n0, acts0))
    (he : r0.outcome = .error e)
    (hcrash : isClaudeCodeCrash e = true)
    (hR1 : runSession cc pa ft (sessionKill r0.sess) a1.events a1.streamErr
      = r1)
    (hA1 : runAdapter fmt StreamingStateM.empty (n0 + 1) r1.calls =
      (adp1, n1, acts1))
    (hok : r1.outcome = .ok resp) :
    handleTextRetry fmt cc pa ft fe iflag sess nid a0 a1 =
    ⟨acts0.map (HEvent.attemptAct 0) ++ cleanupDeletes 0 adp0 ++
      [HEvent.killSession,
       HEvent.handlerReply n0 "⚠️ Claude crashed, retrying..."] ++
      acts1.map (HEvent.attemptAct 1),
     r1.sess, n1, .success resp⟩ := by
  rw [handleTextRetry]
  dsimp only
  rw [hR0, hA0]
  dsimp only
  rw [he]
  dsimp only
  rw [if_pos hcrash, hR1, hA1]
  dsimp only
  rw [hok]

theorem leakRunEq :
    handleTextRetry fmt0 cc0 pa0 ft0 fe0 false sess0 0 atk0 atk1 =
    ⟨[.attemptAct 0 (.create (some 0) 0 (chunkA1 ++ "...")),
      .attemptAct 0 (.delete 0),
      .attemptAct 0 (.create (some 0) 1 chunkA1),
      .attemptAct 0 (.create (some 0) 2 chunkA2),
      .attemptAct 0 (.create none 3 "t"),
      .cleanupDelete 0 3,
      .cleanupDelete 0 0,
      .killSession,
      .handlerReply 4 "⚠️ Claude crashed, retrying...",
      .attemptAct 1 (.create (some 0) 5 okT),
      .attemptAct 1 (.edit (some 0) 5 okT)],
     ⟨none, false, none, none, some "t"⟩, 6,
     .success okT⟩ :=
  Eq.trans
    (handleTextRetry_crash_ok fmt0 cc0 pa0 ft0 fe0 false sess0 0 atk0 atk1
      _ _ _ _ _ _ _ _ crashMsgA okT
      leakRun0 leakAdapter0 rfl (by decide) leakRun1 leakAdapter1 rfl)
    rfl

/-- Counterexample to C1 as stated: a first-crash retry does NOT delete
every chat message created during the crashed attempt.  In the recorded
run, attempt 0 renders a 4097-character segment; when the tool invocation
closes the segment, the adapter deletes the tracked message and re-sends
the content as two chunk messages (handles 1 and 2) which it does not
record in `StreamingState.textMessages` (streaming.ts lines 170-179).
The provider then crashes with the crash signature; the rollback deletes
only the tracked handles (3 and 0), the run restarts once and succeeds —
but chunk message 1 (created during the crashed attempt) is never
deleted by any event of the whole trace, even though the retry attempt
creates new messages (handle 5) after it. -/
theorem C1_counterexample :
    isClaudeCodeCrash crashMsgA = true ∧
    (handleTextRetry fmt0 cc0 pa0 ft0 fe0 false sess0 0 atk0 atk1).outcome =
      HandlerOutcome.success okT ∧
    ((handleTextRetry fmt0 cc0 pa0 ft0 fe0 false sess0 0 atk0
        atk1).trace.any (hevCreates 0 1)) = true ∧
    ((handleTextRetry fmt0 cc0 pa0 ft0 fe0 false sess0 0 atk0
        atk1).trace.any (hevCreates 1 5)) = true ∧
    ((handleTextRetry fmt0 cc0 pa0 ft0 fe0 false sess0 0 atk0
        atk1).trace.all (fun ev => !hevDeletes 1 ev)) = true := by
  refine ⟨by decide, ?_, ?_, ?_, ?_⟩
  · rw [leakRunEq]
  · rw [leakRunEq]
    decide
  · rw [leakRunEq]
    decide
  · rw [leakRunEq]
    decide
